import Mathlib

/-!
Verification of the convolutional feature-learning pipeline in
`src/deeplearn_conv.c` (libdeep).

Modelling conventions:
* C `float` arithmetic is idealized as exact rational arithmetic (`ℚ`).
* Flat C buffers (`float *`) are total maps `ℕ → ℚ`; a store through a
  pointer becomes `Function.update`.
* All index arithmetic in the C source operates on non-negative `int`
  values (loop counters counting down from a bound, truncating division of
  non-negative operands), so indices are modelled with `ℕ`, whose `/` and
  `-` agree with C's semantics on that domain.
* `COUNTDOWN(i, n)` loops become folds over `cdList n = [n-1, ..., 0]`,
  `COUNTUP(i, n)` loops become folds over `List.range n`.
* `malloc` outcomes are an oracle `alloc : ℕ → Bool` giving the success of
  the n-th allocation call, so the distinct failure paths of `conv_init`
  are all representable.
-/

namespace LibdeepConv

/-- Index sequence of a `COUNTDOWN(i, n)` loop: `[n-1, n-2, ..., 0]`. -/
def cdList (n : ℕ) : List ℕ := (List.range n).reverse

/-- One layer of the convolution stack (`deeplearn_conv_layer`). -/
structure ConvLayer where
  width : ℕ
  height : ℕ
  depth : ℕ
  no_of_features : ℕ
  feature_width : ℕ
  /-- activation buffer, flat size `width*height*depth` -/
  layer : ℕ → ℚ
  /-- feature bank, flat size `no_of_features*feature_width^2*depth` -/
  feature : ℕ → ℚ

/-- The convolution network state (`deeplearn_conv`). -/
structure Conv where
  no_of_layers : ℕ
  current_layer : ℕ
  learning_rate : ℚ
  itterations : ℕ
  training_ctr : ℕ
  layer : ℕ → ConvLayer
  outputs_width : ℕ
  no_of_outputs : ℕ
  outputs : ℕ → ℚ
  match_threshold : ℕ → ℚ
  history : ℕ → ℚ
  history_index : ℕ
  history_step : ℕ

/-! ### Convolution engine (`convolve_image`) -/

/-- The constant `feature_pixels = 1.0f / (feature_width*feature_width*img_depth)`. -/
def feature_pixels (feature_width img_depth : ℕ) : ℚ :=
  1 / ((feature_width * feature_width * img_depth : ℕ) : ℚ)

/-- One squared-difference term of the innermost accumulation of
`convolve_image`, for spatial position `(yy, xx)` of the feature patch and
channel `d`, at output cell `(layer_y, layer_x)` and feature `f`. -/
def convTerm (img : ℕ → ℚ) (img_width img_height img_depth feature_width : ℕ)
    (feature : ℕ → ℚ) (layer_width layer_y layer_x f yy xx d : ℕ) : ℚ :=
  let ty := layer_y * img_height / layer_width
  let byv := (layer_y + 1) * img_height / layer_width
  let tx := layer_x * img_width / layer_width
  let bxv := (layer_x + 1) * img_width / layer_width
  let tyy := ty + yy * (byv - ty) / feature_width
  let txx := tx + xx * (bxv - tx) / feature_width
  let n0 := (tyy * img_width + txx) * img_depth
  let n1 := (yy * feature_width + xx) * img_depth
  (img (n0 + d) - feature (f * feature_width * feature_width * img_depth + n1 + d)) *
    (img (n0 + d) - feature (f * feature_width * feature_width * img_depth + n1 + d))

/-- The `match` accumulator of `convolve_image`: the three countdown loops
over `yy`, `xx` and `d`. -/
def convMatch (img : ℕ → ℚ) (img_width img_height img_depth feature_width : ℕ)
    (feature : ℕ → ℚ) (layer_width layer_y layer_x f : ℕ) : ℚ :=
  (cdList feature_width).foldl (fun m1 yy =>
    (cdList feature_width).foldl (fun m2 xx =>
      (cdList img_depth).foldl (fun m3 d =>
        m3 + convTerm img img_width img_height img_depth feature_width feature
          layer_width layer_y layer_x f yy xx d) m2) m1) 0

/-- `convMatch` as an order-independent triple sum. -/
def convMatchSum (img : ℕ → ℚ) (img_width img_height img_depth feature_width : ℕ)
    (feature : ℕ → ℚ) (layer_width layer_y layer_x f : ℕ) : ℚ :=
  ∑ yy ∈ Finset.range feature_width, ∑ xx ∈ Finset.range feature_width,
    ∑ d ∈ Finset.range img_depth,
      convTerm img img_width img_height img_depth feature_width feature
        layer_width layer_y layer_x f yy xx d

/-- `convolve_image` from `deeplearn_conv.c`: three countdown loops over the
output cells and features, each storing one similarity value into the output
buffer; returns the updated output buffer. -/
def convolve_image (img : ℕ → ℚ)
    (img_width img_height img_depth feature_width no_of_features : ℕ)
    (feature : ℕ → ℚ) (layer : ℕ → ℚ) (layer_width : ℕ) : ℕ → ℚ :=
  (cdList layer_width).foldl (fun st1 layer_y =>
    (cdList layer_width).foldl (fun st2 layer_x =>
      (cdList no_of_features).foldl (fun st3 f =>
        Function.update st3 ((layer_y * layer_width + layer_x) * no_of_features + f)
          (1 - convMatch img img_width img_height img_depth feature_width feature
                layer_width layer_y layer_x f *
              feature_pixels feature_width img_depth)) st2) st1) layer

/-! ### Generic lemmas about folds of buffer writes -/

/-- Fold of stores at addresses `addr k` with values `val k`, one per key. -/
def writeList {α : Type} (addr : α → ℕ) (val : α → ℚ) (keys : List α)
    (st : ℕ → ℚ) : ℕ → ℚ :=
  keys.foldl (fun s k => Function.update s (addr k) (val k)) st

/-! ### Characterization of `convolve_image` -/

/-- Output-buffer address written by `convolve_image` for the triple
`(layer_y, layer_x, f)`. -/
def convAddr (layer_width no_of_features : ℕ) (t : ℕ × ℕ × ℕ) : ℕ :=
  (t.1 * layer_width + t.2.1) * no_of_features + t.2.2

/-- Similarity value stored by `convolve_image` for the triple
`(layer_y, layer_x, f)`. -/
def convVal (img : ℕ → ℚ)
    (img_width img_height img_depth feature_width _no_of_features : ℕ)
    (feature : ℕ → ℚ) (layer_width : ℕ) (t : ℕ × ℕ × ℕ) : ℚ :=
  1 - convMatch img img_width img_height img_depth feature_width feature
        layer_width t.1 t.2.1 t.2.2 * feature_pixels feature_width img_depth

/-- The triples visited by the three outer countdown loops of
`convolve_image`, in execution order. -/
def convKeys (layer_width no_of_features : ℕ) : List (ℕ × ℕ × ℕ) :=
  (cdList layer_width).flatMap fun layer_y =>
    (cdList layer_width).flatMap fun layer_x =>
      (cdList no_of_features).map fun f => (layer_y, layer_x, f)

/-! ### Feed-forward pipeline (`conv_feed_forward`) -/

/-- The initial loop of `conv_feed_forward`: convert the byte image to
floats, `conv->layer[0].layer[i] = (float)img[i]/255.0f` for
`i` in `[0, width*height*depth)`. -/
def byteNormalize (img : ℕ → ℕ) (n : ℕ) (buf : ℕ → ℚ) : ℕ → ℚ :=
  (cdList n).foldl (fun st i => Function.update st i ((img i : ℚ) / 255)) buf

/-- One iteration of the feed-forward loop: convolve layer `l` into the
next layer's activation buffer, or into `conv->outputs` when `l` is the
last layer (`l >= no_of_layers - 1`). -/
def ffStep (conv : Conv) (l : ℕ) : Conv :=
  if l < conv.no_of_layers - 1 then
    let written :=
      convolve_image (conv.layer l).layer (conv.layer l).width
        (conv.layer l).height (conv.layer l).depth
        (conv.layer l).feature_width (conv.layer l).no_of_features
        (conv.layer l).feature
        ((conv.layer (l + 1)).layer) ((conv.layer (l + 1)).width)
    { conv with layer :=
        Function.update conv.layer (l + 1) ({ conv.layer (l + 1) with layer := written }) }
  else
    let written :=
      convolve_image (conv.layer l).layer (conv.layer l).width
        (conv.layer l).height (conv.layer l).depth
        (conv.layer l).feature_width (conv.layer l).no_of_features
        (conv.layer l).feature conv.outputs conv.outputs_width
    { conv with outputs := written }

/-- State after the initial byte-normalization loop of `conv_feed_forward`. -/
def normalizeConv (img : ℕ → ℕ) (conv : Conv) : Conv :=
  let normalized :=
    byteNormalize img
      ((conv.layer 0).width * (conv.layer 0).height * (conv.layer 0).depth)
      ((conv.layer 0).layer)
  { conv with layer :=
      Function.update conv.layer 0 ({ conv.layer 0 with layer := normalized }) }

/-- The `COUNTUP(l, layer)` loop of `conv_feed_forward`. -/
def ffLoop (conv : Conv) (layer : ℕ) : Conv :=
  (List.range layer).foldl ffStep conv

/-- `conv_feed_forward` from `deeplearn_conv.c`: normalize the input bytes
into layer 0, then convolve the first `layer` stages in order. -/
def conv_feed_forward (img : ℕ → ℕ) (conv : Conv) (layer : ℕ) : Conv :=
  ffLoop (normalizeConv img conv) layer

/-! ### Training controller (`conv_learn`) -/

/-- Result of one call of the external `learn_features` operation.

Modelled from the spec: `learn_features` is an external collaborator whose
implementation is not part of this repository; per §6 of the spec it
consumes a layer's activation buffer, its geometry, its feature bank, a
scratch per-feature score buffer, a learning rate and a mutable random
seed, returns a single scalar score and mutates the feature bank (and the
scratch buffer and seed) in place. -/
structure LearnResult where
  score : ℚ
  feature : ℕ → ℚ
  feature_score : ℕ → ℚ
  seed : ℕ

/-- Signature of the external `learn_features` operation: arguments are the
activation buffer, width, height, depth, feature_width, no_of_features, the
feature bank, the scratch score buffer, the sample count, the learning rate
and the random seed. -/
def LearnOp : Type :=
  (ℕ → ℚ) → ℕ → ℕ → ℕ → ℕ → ℕ → (ℕ → ℚ) → (ℕ → ℚ) → ℕ → ℚ → ℕ → LearnResult

/-- Mutable state of the sample loop inside `conv_learn`. -/
structure LearnState where
  matching_score : ℚ
  feature : ℕ → ℚ
  feature_score : ℕ → ℚ
  itterations : ℕ
  seed : ℕ

/-- One iteration of the sample loop of `conv_learn`: call `learn_features`,
add its score to `matching_score`, increment `conv->itterations`. -/
def learnStep (op : LearnOp) (buf : ℕ → ℚ) (w h d fw nf samples : ℕ) (rate : ℚ)
    (st : LearnState) : LearnState :=
  let r := op buf w h d fw nf st.feature st.feature_score samples rate st.seed
  { matching_score := st.matching_score + r.score
    feature := r.feature
    feature_score := r.feature_score
    itterations := st.itterations + 1
    seed := r.seed }

/-- `conv_learn` from `deeplearn_conv.c`.  `op` is the external
`learn_features` operation, `alloc_ok` the outcome of the scratch
`feature_score` allocation, and `scratch0` the (uninitialized) contents of
that scratch buffer.  Returns the matching score together with the updated
network state and random seed. -/
def conv_learn (op : LearnOp) (img : ℕ → ℕ) (conv : Conv) (samples : ℕ)
    (seed : ℕ) (alloc_ok : Bool) (scratch0 : ℕ → ℚ) : ℚ × Conv × ℕ :=
  let layer := conv.current_layer
  if conv.no_of_layers ≤ layer then (0, conv, seed)
  else if alloc_ok = false then (-1, conv, seed)
  else
    let conv1 := conv_feed_forward img conv layer
    let L := conv1.layer layer
    let st0 : LearnState :=
      { matching_score := 0, feature := L.feature, feature_score := scratch0
        itterations := conv1.itterations, seed := seed }
    let stN := (cdList samples).foldl (fun st _ =>
      learnStep op L.layer L.width L.height L.depth L.feature_width
        L.no_of_features samples conv1.learning_rate st) st0
    let conv2 := { conv1 with
        layer := Function.update conv1.layer layer ({ L with feature := stN.feature })
        itterations := stN.itterations }
    let conv3 := if stN.matching_score < conv1.match_threshold layer then
        { conv2 with current_layer := conv2.current_layer + 1 }
      else conv2
    (stN.matching_score, conv3, stN.seed)

/-- Deterministic stub for the external learning operation: returns the
fixed score `k` on every call and leaves the feature bank, the scratch
buffer and the seed unchanged. -/
def constStub (k : ℚ) : LearnOp :=
  fun _ _ _ _ _ _ feat fs _ _ seed =>
    { score := k, feature := feat, feature_score := fs, seed := seed }

/-! ### Construction (`conv_init`) -/

/-- Contents of an entry of `conv->layer[]` before `conv_init` touches it. -/
def defaultLayer : ConvLayer :=
  { width := 0, height := 0, depth := 0, no_of_features := 0, feature_width := 0
    layer := fun _ => 0, feature := fun _ => 0 }

/-- The per-layer loop of `conv_init`.  `alloc i` is the outcome of the
`i`-th allocation call: within layer `l`, call `2*l` allocates the
activation buffer (failure code 1) and call `2*l+1` the feature bank
(failure code 2).  The freshly allocated buffers are modelled as
zero-filled maps; no claim depends on their initial contents. -/
def initLayersAux (alloc : ℕ → Bool)
    (image_width image_height image_depth no_of_features feature_width
      final_image_width final_image_height no_of_layers : ℕ) :
    ℕ → ℕ → (ℕ → ConvLayer) → Except ℕ (ℕ → ConvLayer)
  | 0, _, layers => .ok layers
  | r + 1, l, layers =>
    let w := image_width - (image_width - final_image_width) * l / no_of_layers
    let h := if l = 0 then
        image_height - (image_height - final_image_height) * l / no_of_layers
      else w
    let d := if l = 0 then image_depth else (layers (l - 1)).no_of_features
    let fw0 := feature_width * w / image_width
    let fw := if fw0 < 3 then 3 else fw0
    let layers' := Function.update layers l
      ({ width := w, height := h, depth := d, no_of_features := no_of_features
         feature_width := fw, layer := fun _ => 0, feature := fun _ => 0 })
    if alloc (2 * l) = false then .error 1
    else if alloc (2 * l + 1) = false then .error 2
    else initLayersAux alloc image_width image_height image_depth no_of_features
      feature_width final_image_width final_image_height no_of_layers r (l + 1) layers'

/-- `conv_init` from `deeplearn_conv.c`.  After the per-layer loop, call
`2*no_of_layers` allocates `conv->outputs` (failure code 3) and call
`2*no_of_layers+1` allocates `conv->match_threshold` (failure code 4); on
success the caller's threshold array is copied into owned storage. -/
def conv_init (alloc : ℕ → Bool)
    (no_of_layers image_width image_height image_depth no_of_features
      feature_width final_image_width final_image_height : ℕ)
    (match_threshold : ℕ → ℚ) : Except ℕ Conv :=
  match initLayersAux alloc image_width image_height image_depth no_of_features
      feature_width final_image_width final_image_height no_of_layers
      no_of_layers 0 (fun _ => defaultLayer) with
  | .error e => .error e
  | .ok layers =>
    if alloc (2 * no_of_layers) = false then .error 3
    else if alloc (2 * no_of_layers + 1) = false then .error 4
    else .ok
      { no_of_layers := no_of_layers, current_layer := 0, learning_rate := 1 / 10
        itterations := 0, training_ctr := 0, layer := layers
        outputs_width := final_image_width
        no_of_outputs :=
          final_image_width * final_image_width * (layers (no_of_layers - 1)).depth
        outputs := fun _ => 0
        match_threshold := fun i => if i < no_of_layers then match_threshold i else 0
        history := fun _ => 0, history_index := 0, history_step := 0 }

/-- Closed form of the layer geometry established by `conv_init`. -/
def layerSpec (image_width image_height image_depth no_of_features feature_width
    final_image_width final_image_height no_of_layers l : ℕ) : ConvLayer :=
  let w := image_width - (image_width - final_image_width) * l / no_of_layers
  { width := w
    height := if l = 0 then
        image_height - (image_height - final_image_height) * l / no_of_layers
      else w
    depth := if l = 0 then image_depth else no_of_features
    no_of_features := no_of_features
    feature_width := if feature_width * w / image_width < 3 then 3
      else feature_width * w / image_width
    layer := fun _ => 0, feature := fun _ => 0 }

/-- A small concrete network state used by witnesses. -/
def demoConv : Conv :=
  { no_of_layers := 1, current_layer := 1, learning_rate := 1 / 10
    itterations := 0, training_ctr := 0, layer := fun _ => defaultLayer
    outputs_width := 0, no_of_outputs := 0, outputs := fun _ => 0
    match_threshold := fun _ => 0, history := fun _ => 0
    history_index := 0, history_step := 0 }


/-- Equality of every field that the feed-forward pipeline never writes:
all scalar fields, and every layer's geometry and feature bank. -/
structure FrameEq (a b : Conv) : Prop where
  no_of_layers : a.no_of_layers = b.no_of_layers
  current_layer : a.current_layer = b.current_layer
  learning_rate : a.learning_rate = b.learning_rate
  itterations : a.itterations = b.itterations
  training_ctr : a.training_ctr = b.training_ctr
  outputs_width : a.outputs_width = b.outputs_width
  no_of_outputs : a.no_of_outputs = b.no_of_outputs
  match_threshold : a.match_threshold = b.match_threshold
  history : a.history = b.history
  history_index : a.history_index = b.history_index
  history_step : a.history_step = b.history_step
  layer_width : ∀ m, (a.layer m).width = (b.layer m).width
  layer_height : ∀ m, (a.layer m).height = (b.layer m).height
  layer_depth : ∀ m, (a.layer m).depth = (b.layer m).depth
  layer_features : ∀ m, (a.layer m).no_of_features = (b.layer m).no_of_features
  layer_feature_width : ∀ m, (a.layer m).feature_width = (b.layer m).feature_width
  layer_feature : ∀ m, (a.layer m).feature = (b.layer m).feature

/-- The sample-loop step of `conv_learn`, with the loop-invariant call
arguments (current layer's activation buffer and geometry) spelled out. -/
@[reducible]
def convLearnStep (op : LearnOp) (img : ℕ → ℕ) (conv : Conv) (samples : ℕ) :
    LearnState → LearnState :=
  let layer := conv.current_layer
  let conv1 := conv_feed_forward img conv layer
  let L := conv1.layer layer
  learnStep op L.layer L.width L.height L.depth L.feature_width L.no_of_features
    samples conv1.learning_rate

/-- Initial state of the sample loop of `conv_learn`. -/
@[reducible]
def convLearnSt0 (img : ℕ → ℕ) (conv : Conv) (seed : ℕ)
    (scratch0 : ℕ → ℚ) : LearnState :=
  let layer := conv.current_layer
  let conv1 := conv_feed_forward img conv layer
  { matching_score := 0, feature := (conv1.layer layer).feature
    feature_score := scratch0, itterations := conv1.itterations, seed := seed }

/-- Score returned by the `i`-th call (0-based) of the external learning
operation during one `conv_learn` invocation. -/
@[reducible]
def convLearnCallScore (op : LearnOp) (img : ℕ → ℕ) (conv : Conv) (samples : ℕ)
    (seed : ℕ) (scratch0 : ℕ → ℚ) (i : ℕ) : ℚ :=
  let layer := conv.current_layer
  let conv1 := conv_feed_forward img conv layer
  let L := conv1.layer layer
  let st := (convLearnStep op img conv samples)^[i] (convLearnSt0 img conv seed scratch0)
  (op L.layer L.width L.height L.depth L.feature_width L.no_of_features
    st.feature st.feature_score samples conv1.learning_rate st.seed).score

/-- A concrete network state still in training (`current_layer <
no_of_layers`), used by witnesses. -/
def demoTrainConv : Conv := { demoConv with current_layer := 0 }

/-- Per-layer match thresholds of the concrete scenario of §8 of the spec. -/
def scenarioThresholds : ℕ → ℚ := fun _ => 1 / 2

/-- The concrete network of §8 of the spec: 2 layers, 8x8x1 image, final
size 4x4, 2 features of base width 4, thresholds `[0.5, 0.5]`; its feature
banks are all-zero. -/
def scenarioConv : Conv :=
  (conv_init (fun _ => true) 2 8 8 1 2 4 4 4 scenarioThresholds).toOption.getD demoConv

/-! ### Supporting lemmas -/

lemma cdList_zero : cdList 0 = [] := rfl

lemma cdList_succ (n : ℕ) : cdList (n + 1) = n :: cdList n := by
  simp [cdList, List.range_succ]

lemma mem_cdList {k n : ℕ} : k ∈ cdList n ↔ k < n := by
  simp [cdList]

lemma cdList_foldl_add (g : ℕ → ℚ) (c : ℚ) (n : ℕ) :
    (cdList n).foldl (fun a x => a + g x) c = c + ∑ i ∈ Finset.range n, g i := by
  induction n generalizing c with
  | zero => simp [cdList_zero]
  | succ n ih =>
    rw [cdList_succ, List.foldl_cons, ih, Finset.sum_range_succ]
    ring

lemma convMatch_eq_sum (img : ℕ → ℚ) (img_width img_height img_depth feature_width : ℕ)
    (feature : ℕ → ℚ) (layer_width layer_y layer_x f : ℕ) :
    convMatch img img_width img_height img_depth feature_width feature
        layer_width layer_y layer_x f =
      convMatchSum img img_width img_height img_depth feature_width feature
        layer_width layer_y layer_x f := by
  unfold convMatch convMatchSum
  have hinner : ∀ (c : ℚ) (yy xx : ℕ),
      (cdList img_depth).foldl (fun m3 d =>
        m3 + convTerm img img_width img_height img_depth feature_width feature
          layer_width layer_y layer_x f yy xx d) c =
      c + ∑ d ∈ Finset.range img_depth,
        convTerm img img_width img_height img_depth feature_width feature
          layer_width layer_y layer_x f yy xx d := by
    intro c yy xx
    exact cdList_foldl_add _ c img_depth
  have hmid : ∀ (c : ℚ) (yy : ℕ),
      (cdList feature_width).foldl (fun m2 xx =>
        (cdList img_depth).foldl (fun m3 d =>
          m3 + convTerm img img_width img_height img_depth feature_width feature
            layer_width layer_y layer_x f yy xx d) m2) c =
      c + ∑ xx ∈ Finset.range feature_width, ∑ d ∈ Finset.range img_depth,
        convTerm img img_width img_height img_depth feature_width feature
          layer_width layer_y layer_x f yy xx d := by
    intro c yy
    have := cdList_foldl_add (fun xx =>
      ∑ d ∈ Finset.range img_depth,
        convTerm img img_width img_height img_depth feature_width feature
          layer_width layer_y layer_x f yy xx d) c feature_width
    rw [← this]
    congr 1
    funext m2 xx
    exact hinner m2 yy xx
  have h0 : ∀ (c : ℚ),
      (cdList feature_width).foldl (fun m1 yy =>
        (cdList feature_width).foldl (fun m2 xx =>
          (cdList img_depth).foldl (fun m3 d =>
            m3 + convTerm img img_width img_height img_depth feature_width feature
              layer_width layer_y layer_x f yy xx d) m2) m1) c =
      (cdList feature_width).foldl (fun a yy => a +
        ∑ xx ∈ Finset.range feature_width, ∑ d ∈ Finset.range img_depth,
          convTerm img img_width img_height img_depth feature_width feature
            layer_width layer_y layer_x f yy xx d) c := by
    intro c
    congr 1
    funext m1 yy
    exact hmid m1 yy
  rw [h0 0, cdList_foldl_add, zero_add]

lemma writeList_nil {α : Type} (addr : α → ℕ) (val : α → ℚ) (st : ℕ → ℚ) :
    writeList addr val [] st = st := rfl

lemma writeList_cons {α : Type} (addr : α → ℕ) (val : α → ℚ) (k : α)
    (keys : List α) (st : ℕ → ℚ) :
    writeList addr val (k :: keys) st =
      writeList addr val keys (Function.update st (addr k) (val k)) := rfl

lemma writeList_apply_ne {α : Type} (addr : α → ℕ) (val : α → ℚ)
    (keys : List α) (st : ℕ → ℚ) (n : ℕ)
    (h : ∀ k ∈ keys, addr k ≠ n) :
    writeList addr val keys st n = st n := by
  induction keys generalizing st with
  | nil => rfl
  | cons k keys ih =>
    rw [writeList_cons, ih _ fun k' hk' => h k' (List.mem_cons_of_mem _ hk')]
    exact Function.update_noteq (fun hn => h k (List.mem_cons_self _ _) (by simp [hn])) _ st

lemma writeList_apply_mem {α : Type} (addr : α → ℕ) (val : α → ℚ)
    (keys : List α) (st : ℕ → ℚ) (n : ℕ) (v : ℚ)
    (hmem : ∃ k ∈ keys, addr k = n)
    (hval : ∀ k ∈ keys, addr k = n → val k = v) :
    writeList addr val keys st n = v := by
  induction keys generalizing st with
  | nil => simp at hmem
  | cons k keys ih =>
    rw [writeList_cons]
    by_cases hrest : ∃ k' ∈ keys, addr k' = n
    · exact ih _ hrest fun k' hk' h' => hval k' (List.mem_cons_of_mem _ hk') h'
    · obtain ⟨k0, hk0, hk0n⟩ := hmem
      have hk : k ∈ (k :: keys) := List.mem_cons_self _ _
      have hkn : addr k = n := by
        rcases List.mem_cons.mp hk0 with h | h
        · rw [← h]; exact hk0n
        · exact absurd ⟨k0, h, hk0n⟩ hrest
      rw [writeList_apply_ne _ _ _ _ _ fun k' hk' hne => hrest ⟨k', hk', hne⟩]
      rw [hkn, Function.update_same]
      exact hval k hk hkn

lemma foldl_flatten {α β γ : Type} (l : List α) (h : α → List β)
    (g : γ → β → γ) (init : γ) :
    l.foldl (fun acc a => (h a).foldl g acc) init = (l.flatMap h).foldl g init := by
  induction l generalizing init with
  | nil => rfl
  | cons a l ih => simp [List.flatMap_cons, List.foldl_append, ih]

lemma mem_convKeys {layer_width no_of_features : ℕ} {t : ℕ × ℕ × ℕ} :
    t ∈ convKeys layer_width no_of_features ↔
      t.1 < layer_width ∧ t.2.1 < layer_width ∧ t.2.2 < no_of_features := by
  obtain ⟨ly, lx, f⟩ := t
  simp only [convKeys, List.mem_flatMap, List.mem_map, mem_cdList]
  constructor
  · rintro ⟨a, ha, b, hb, c, hc, h⟩
    obtain ⟨rfl, rfl, rfl⟩ : a = ly ∧ b = lx ∧ c = f := by
      simpa [Prod.ext_iff] using h
    exact ⟨ha, hb, hc⟩
  · rintro ⟨h1, h2, h3⟩
    exact ⟨ly, h1, lx, h2, f, h3, rfl⟩

lemma convolve_image_eq_writeList (img : ℕ → ℚ)
    (img_width img_height img_depth feature_width no_of_features : ℕ)
    (feature : ℕ → ℚ) (layer : ℕ → ℚ) (layer_width : ℕ) :
    convolve_image img img_width img_height img_depth feature_width no_of_features
        feature layer layer_width =
      writeList (convAddr layer_width no_of_features)
        (convVal img img_width img_height img_depth feature_width no_of_features
          feature layer_width)
        (convKeys layer_width no_of_features) layer := by
  unfold convolve_image writeList convKeys
  rw [← foldl_flatten]
  congr 1
  funext st1 layer_y
  rw [← foldl_flatten]
  congr 1
  funext st2 layer_x
  rw [List.foldl_map]
  rfl

lemma mul_add_inj {n a b f g : ℕ} (hf : f < n) (hg : g < n)
    (h : a * n + f = b * n + g) : a = b ∧ f = g := by
  have hn : 0 < n := Nat.pos_of_ne_zero (by rintro rfl; exact Nat.not_lt_zero f hf)
  have h1 : (a * n + f) / n = a := by
    rw [Nat.add_comm, Nat.add_mul_div_right _ _ hn, Nat.div_eq_of_lt hf, Nat.zero_add]
  have h2 : (b * n + g) / n = b := by
    rw [Nat.add_comm, Nat.add_mul_div_right _ _ hn, Nat.div_eq_of_lt hg, Nat.zero_add]
  have hab : a = b := by rw [← h1, ← h2, h]
  subst hab
  exact ⟨rfl, Nat.add_left_cancel h⟩

lemma convAddr_inj {layer_width no_of_features : ℕ} {t t' : ℕ × ℕ × ℕ}
    (h1 : t.2.1 < layer_width) (h2 : t.2.2 < no_of_features)
    (h1' : t'.2.1 < layer_width) (h2' : t'.2.2 < no_of_features)
    (h : convAddr layer_width no_of_features t = convAddr layer_width no_of_features t') :
    t = t' := by
  obtain ⟨ly, lx, f⟩ := t
  obtain ⟨ly', lx', f'⟩ := t'
  simp only [convAddr] at h
  obtain ⟨hrow, hf⟩ := mul_add_inj h2 h2' h
  obtain ⟨hy, hx⟩ := mul_add_inj h1 h1' hrow
  simp_all

lemma convAddr_decomp {layer_width no_of_features j : ℕ}
    (hj : j < layer_width * layer_width * no_of_features) :
    ∃ t : ℕ × ℕ × ℕ, t.1 < layer_width ∧ t.2.1 < layer_width ∧
      t.2.2 < no_of_features ∧ convAddr layer_width no_of_features t = j := by
  have hnf : 0 < no_of_features := by
    rcases Nat.eq_zero_or_pos no_of_features with h | h
    · subst h; simp at hj
    · exact h
  have hlw : 0 < layer_width := by
    rcases Nat.eq_zero_or_pos layer_width with h | h
    · subst h; simp at hj
    · exact h
  have hq : j / no_of_features < layer_width * layer_width :=
    (Nat.div_lt_iff_lt_mul hnf).mpr hj
  refine ⟨(j / no_of_features / layer_width, j / no_of_features % layer_width,
    j % no_of_features), ?_, ?_, ?_, ?_⟩
  · exact (Nat.div_lt_iff_lt_mul hlw).mpr hq
  · exact Nat.mod_lt _ hlw
  · exact Nat.mod_lt _ hnf
  · show (j / no_of_features / layer_width * layer_width +
        j / no_of_features % layer_width) * no_of_features + j % no_of_features = j
    rw [Nat.mul_comm (j / no_of_features / layer_width) layer_width,
      Nat.div_add_mod (j / no_of_features) layer_width,
      Nat.mul_comm (j / no_of_features) no_of_features,
      Nat.div_add_mod j no_of_features]

lemma convolve_image_apply_written (img : ℕ → ℚ)
    (img_width img_height img_depth feature_width no_of_features : ℕ)
    (feature : ℕ → ℚ) (layer : ℕ → ℚ) (layer_width : ℕ)
    (layer_y layer_x f : ℕ) (hy : layer_y < layer_width) (hx : layer_x < layer_width)
    (hf : f < no_of_features) :
    convolve_image img img_width img_height img_depth feature_width no_of_features
        feature layer layer_width
        ((layer_y * layer_width + layer_x) * no_of_features + f) =
      1 - convMatchSum img img_width img_height img_depth feature_width feature
            layer_width layer_y layer_x f * feature_pixels feature_width img_depth := by
  rw [convolve_image_eq_writeList]
  rw [← convMatch_eq_sum]
  refine writeList_apply_mem _ _ _ _ _ _
    ⟨(layer_y, layer_x, f), mem_convKeys.mpr ⟨hy, hx, hf⟩, rfl⟩ ?_
  intro k hk hkaddr
  obtain ⟨hk1, hk2, hk3⟩ := mem_convKeys.mp hk
  have : k = (layer_y, layer_x, f) :=
    @convAddr_inj layer_width no_of_features k (layer_y, layer_x, f)
      hk2 hk3 hx hf hkaddr
  subst this
  rfl

lemma convolve_image_apply_untouched (img : ℕ → ℚ)
    (img_width img_height img_depth feature_width no_of_features : ℕ)
    (feature : ℕ → ℚ) (layer : ℕ → ℚ) (layer_width : ℕ) (n : ℕ)
    (h : ∀ layer_y layer_x f, layer_y < layer_width → layer_x < layer_width →
      f < no_of_features → (layer_y * layer_width + layer_x) * no_of_features + f ≠ n) :
    convolve_image img img_width img_height img_depth feature_width no_of_features
        feature layer layer_width n = layer n := by
  rw [convolve_image_eq_writeList]
  refine writeList_apply_ne _ _ _ _ _ ?_
  intro k hk
  obtain ⟨hk1, hk2, hk3⟩ := mem_convKeys.mp hk
  exact h k.1 k.2.1 k.2.2 hk1 hk2 hk3

lemma convolve_image_apply_const (img : ℕ → ℚ)
    (img_width img_height img_depth feature_width no_of_features : ℕ)
    (feature : ℕ → ℚ) (layer : ℕ → ℚ) (layer_width : ℕ) (v : ℚ)
    (hval : ∀ layer_y layer_x f, layer_y < layer_width → layer_x < layer_width →
      f < no_of_features →
      1 - convMatch img img_width img_height img_depth feature_width feature
            layer_width layer_y layer_x f * feature_pixels feature_width img_depth = v)
    (j : ℕ) (hj : j < layer_width * layer_width * no_of_features) :
    convolve_image img img_width img_height img_depth feature_width no_of_features
        feature layer layer_width j = v := by
  rw [convolve_image_eq_writeList]
  obtain ⟨t, h1, h2, h3, haddr⟩ := convAddr_decomp hj
  refine writeList_apply_mem _ _ _ _ _ _ ⟨t, mem_convKeys.mpr ⟨h1, h2, h3⟩, haddr⟩ ?_
  intro k hk _
  obtain ⟨hk1, hk2, hk3⟩ := mem_convKeys.mp hk
  exact hval k.1 k.2.1 k.2.2 hk1 hk2 hk3

/-! ### Frame lemmas for the feed-forward pipeline -/

lemma frameEq_refl (a : Conv) : FrameEq a a :=
  ⟨rfl, rfl, rfl, rfl, rfl, rfl, rfl, rfl, rfl, rfl, rfl,
    fun _ => rfl, fun _ => rfl, fun _ => rfl, fun _ => rfl, fun _ => rfl, fun _ => rfl⟩

lemma frameEq_trans {a b c : Conv} (h1 : FrameEq a b) (h2 : FrameEq b c) :
    FrameEq a c where
  no_of_layers := h1.no_of_layers.trans h2.no_of_layers
  current_layer := h1.current_layer.trans h2.current_layer
  learning_rate := h1.learning_rate.trans h2.learning_rate
  itterations := h1.itterations.trans h2.itterations
  training_ctr := h1.training_ctr.trans h2.training_ctr
  outputs_width := h1.outputs_width.trans h2.outputs_width
  no_of_outputs := h1.no_of_outputs.trans h2.no_of_outputs
  match_threshold := h1.match_threshold.trans h2.match_threshold
  history := h1.history.trans h2.history
  history_index := h1.history_index.trans h2.history_index
  history_step := h1.history_step.trans h2.history_step
  layer_width := fun m => (h1.layer_width m).trans (h2.layer_width m)
  layer_height := fun m => (h1.layer_height m).trans (h2.layer_height m)
  layer_depth := fun m => (h1.layer_depth m).trans (h2.layer_depth m)
  layer_features := fun m => (h1.layer_features m).trans (h2.layer_features m)
  layer_feature_width := fun m => (h1.layer_feature_width m).trans (h2.layer_feature_width m)
  layer_feature := fun m => (h1.layer_feature m).trans (h2.layer_feature m)

lemma ffStep_frameEq (conv : Conv) (l : ℕ) : FrameEq (ffStep conv l) conv := by
  unfold ffStep
  split
  · refine ⟨rfl, rfl, rfl, rfl, rfl, rfl, rfl, rfl, rfl, rfl, rfl,
      ?_, ?_, ?_, ?_, ?_, ?_⟩ <;>
      · intro m
        by_cases hm : m = l + 1
        · subst hm; simp
        · simp [Function.update_noteq hm]
  · exact ⟨rfl, rfl, rfl, rfl, rfl, rfl, rfl, rfl, rfl, rfl, rfl,
      fun _ => rfl, fun _ => rfl, fun _ => rfl, fun _ => rfl, fun _ => rfl, fun _ => rfl⟩

lemma ffStep_layer_buffer_ne (conv : Conv) (l m : ℕ) (hm : m ≠ l + 1) :
    ((ffStep conv l).layer m).layer = (conv.layer m).layer := by
  unfold ffStep
  split
  · simp [Function.update_noteq hm]
  · rfl

lemma ffStep_outputs_of_lt (conv : Conv) (l : ℕ) (h : l < conv.no_of_layers - 1) :
    (ffStep conv l).outputs = conv.outputs := by
  unfold ffStep
  rw [if_pos h]

lemma ffStep_layer_buffer_write (conv : Conv) (l : ℕ) (h : l < conv.no_of_layers - 1) :
    ((ffStep conv l).layer (l + 1)).layer =
      convolve_image (conv.layer l).layer (conv.layer l).width (conv.layer l).height
        (conv.layer l).depth (conv.layer l).feature_width (conv.layer l).no_of_features
        (conv.layer l).feature ((conv.layer (l + 1)).layer) ((conv.layer (l + 1)).width) := by
  unfold ffStep
  rw [if_pos h]
  simp

lemma ffStep_outputs_write (conv : Conv) (l : ℕ) (h : ¬ l < conv.no_of_layers - 1) :
    (ffStep conv l).outputs =
      convolve_image (conv.layer l).layer (conv.layer l).width (conv.layer l).height
        (conv.layer l).depth (conv.layer l).feature_width (conv.layer l).no_of_features
        (conv.layer l).feature conv.outputs conv.outputs_width := by
  unfold ffStep
  rw [if_neg h]

lemma ffLoop_zero (conv : Conv) : ffLoop conv 0 = conv := rfl

lemma ffLoop_succ (conv : Conv) (L : ℕ) :
    ffLoop conv (L + 1) = ffStep (ffLoop conv L) L := by
  unfold ffLoop
  rw [List.range_succ, List.foldl_append]
  rfl

lemma ffLoop_frameEq (conv : Conv) (L : ℕ) : FrameEq (ffLoop conv L) conv := by
  induction L with
  | zero => exact frameEq_refl conv
  | succ L ih =>
    rw [ffLoop_succ]
    exact frameEq_trans (ffStep_frameEq _ L) ih

lemma ffLoop_layer_buffer_untouched (conv : Conv) (L : ℕ) :
    ∀ m, m = 0 ∨ L < m → ((ffLoop conv L).layer m).layer = (conv.layer m).layer := by
  induction L with
  | zero => intro m _; rfl
  | succ L ih =>
    intro m hm
    have hm' : m = 0 ∨ L < m := by
      rcases hm with h | h
      · exact Or.inl h
      · exact Or.inr (Nat.lt_of_succ_lt h)
    have hne : m ≠ L + 1 := by
      rcases hm with h | h
      · omega
      · omega
    rw [ffLoop_succ, ffStep_layer_buffer_ne _ _ _ hne]
    exact ih m hm'

lemma ffLoop_outputs_untouched (conv : Conv) (L : ℕ)
    (h : ∀ l, l < L → l < conv.no_of_layers - 1) :
    (ffLoop conv L).outputs = conv.outputs := by
  induction L with
  | zero => rfl
  | succ L ih =>
    have h1 : L < (ffLoop conv L).no_of_layers - 1 := by
      rw [(ffLoop_frameEq conv L).no_of_layers]
      exact h L (Nat.lt_succ_self L)
    rw [ffLoop_succ, ffStep_outputs_of_lt _ _ h1]
    exact ih fun l hl => h l (Nat.lt_succ_of_lt hl)

lemma ffLoop_layer_buffer_written (conv : Conv) (L : ℕ) :
    ∀ m, 1 ≤ m → m ≤ L → m < conv.no_of_layers →
    ((ffLoop conv L).layer m).layer =
      convolve_image (((ffLoop conv L).layer (m - 1)).layer)
        ((conv.layer (m - 1)).width) ((conv.layer (m - 1)).height)
        ((conv.layer (m - 1)).depth) ((conv.layer (m - 1)).feature_width)
        ((conv.layer (m - 1)).no_of_features) ((conv.layer (m - 1)).feature)
        ((conv.layer m).layer) ((conv.layer m).width) := by
  induction L with
  | zero => intro m h1 h2 _; omega
  | succ L ih =>
    intro m h1 h2 h3
    rcases Nat.lt_or_ge m (L + 1) with hm | hm
    · have hmL : m ≤ L := Nat.lt_succ_iff.mp hm
      have hne : m ≠ L + 1 := by omega
      have hne' : m - 1 ≠ L + 1 := by omega
      rw [ffLoop_succ, ffStep_layer_buffer_ne _ _ _ hne,
        ffStep_layer_buffer_ne _ _ _ hne']
      exact ih m h1 hmL h3
    · have hm' : m = L + 1 := by omega
      subst hm'
      have hstep : L < (ffLoop conv L).no_of_layers - 1 := by
        rw [(ffLoop_frameEq conv L).no_of_layers]
        omega
      rw [ffLoop_succ, ffStep_layer_buffer_write _ _ hstep]
      have hfr := ffLoop_frameEq conv L
      rw [hfr.layer_width L, hfr.layer_height L, hfr.layer_depth L,
        hfr.layer_feature_width L, hfr.layer_features L, hfr.layer_feature L,
        ffLoop_layer_buffer_untouched conv L (L + 1) (Or.inr (Nat.lt_succ_self L)),
        hfr.layer_width (L + 1)]
      have hbuf : ((ffStep (ffLoop conv L) L).layer (L + 1 - 1)).layer =
          ((ffLoop conv L).layer L).layer := by
        have : (L + 1 - 1 : ℕ) = L := rfl
        rw [this]
        exact ffStep_layer_buffer_ne _ _ _ (by omega)
      rw [hbuf]
      rfl

lemma ffLoop_outputs_final (conv : Conv) (h1 : 1 ≤ conv.no_of_layers) :
    (ffLoop conv conv.no_of_layers).outputs =
      convolve_image (((ffLoop conv conv.no_of_layers).layer (conv.no_of_layers - 1)).layer)
        ((conv.layer (conv.no_of_layers - 1)).width)
        ((conv.layer (conv.no_of_layers - 1)).height)
        ((conv.layer (conv.no_of_layers - 1)).depth)
        ((conv.layer (conv.no_of_layers - 1)).feature_width)
        ((conv.layer (conv.no_of_layers - 1)).no_of_features)
        ((conv.layer (conv.no_of_layers - 1)).feature)
        conv.outputs conv.outputs_width := by
  obtain ⟨N, hN⟩ : ∃ N, conv.no_of_layers = N + 1 := ⟨conv.no_of_layers - 1, by omega⟩
  rw [hN]
  have hNsub : N + 1 - 1 = N := rfl
  rw [hNsub]
  have hstep : ¬ N < (ffLoop conv N).no_of_layers - 1 := by
    rw [(ffLoop_frameEq conv N).no_of_layers, hN]
    omega
  rw [ffLoop_succ, ffStep_outputs_write _ _ hstep]
  have hfr := ffLoop_frameEq conv N
  rw [hfr.layer_width N, hfr.layer_height N, hfr.layer_depth N,
    hfr.layer_feature_width N, hfr.layer_features N, hfr.layer_feature N,
    hfr.outputs_width,
    ffLoop_outputs_untouched conv N (by rw [hN]; omega)]
  have hbuf : ((ffStep (ffLoop conv N) N).layer N).layer =
      ((ffLoop conv N).layer N).layer :=
    ffStep_layer_buffer_ne _ _ _ (by omega)
  rw [hbuf]

lemma normalizeConv_frameEq (img : ℕ → ℕ) (conv : Conv) :
    FrameEq (normalizeConv img conv) conv := by
  unfold normalizeConv
  refine ⟨rfl, rfl, rfl, rfl, rfl, rfl, rfl, rfl, rfl, rfl, rfl,
    ?_, ?_, ?_, ?_, ?_, ?_⟩ <;>
    · intro m
      by_cases hm : m = 0
      · subst hm; simp
      · simp [Function.update_noteq hm]

lemma normalizeConv_layer_buffer_ne (img : ℕ → ℕ) (conv : Conv) (m : ℕ)
    (hm : m ≠ 0) :
    ((normalizeConv img conv).layer m).layer = (conv.layer m).layer := by
  unfold normalizeConv
  simp [Function.update_noteq hm]

lemma normalizeConv_layer0 (img : ℕ → ℕ) (conv : Conv) :
    ((normalizeConv img conv).layer 0).layer =
      byteNormalize img
        ((conv.layer 0).width * (conv.layer 0).height * (conv.layer 0).depth)
        ((conv.layer 0).layer) := by
  unfold normalizeConv
  simp

lemma normalizeConv_outputs (img : ℕ → ℕ) (conv : Conv) :
    (normalizeConv img conv).outputs = conv.outputs := rfl

lemma conv_feed_forward_frameEq (img : ℕ → ℕ) (conv : Conv) (L : ℕ) :
    FrameEq (conv_feed_forward img conv L) conv :=
  frameEq_trans (ffLoop_frameEq _ L) (normalizeConv_frameEq img conv)


/-! ### Lemmas about the sample loop of `conv_learn` -/

lemma cdList_foldl_const {α : Type} (f : α → α) (x : α) (n : ℕ) :
    (cdList n).foldl (fun st _ => f st) x = f^[n] x := by
  induction n generalizing x with
  | zero => rfl
  | succ n ih => rw [cdList_succ, List.foldl_cons, ih, Function.iterate_succ_apply]

lemma learn_foldl_eq_iterate (op : LearnOp) (buf : ℕ → ℚ)
    (w h d fw nf samples : ℕ) (rate : ℚ) (st0 : LearnState) (n : ℕ) :
    (cdList n).foldl
        (fun st _ => learnStep op buf w h d fw nf samples rate st) st0 =
      (learnStep op buf w h d fw nf samples rate)^[n] st0 :=
  cdList_foldl_const _ st0 n

lemma learn_iterate_score (op : LearnOp) (buf : ℕ → ℚ)
    (w h d fw nf samples : ℕ) (rate : ℚ) (st0 : LearnState) (n : ℕ) :
    ((learnStep op buf w h d fw nf samples rate)^[n] st0).matching_score =
      st0.matching_score + ∑ i ∈ Finset.range n,
        (op buf w h d fw nf
          (((learnStep op buf w h d fw nf samples rate)^[i] st0).feature)
          (((learnStep op buf w h d fw nf samples rate)^[i] st0).feature_score)
          samples rate
          (((learnStep op buf w h d fw nf samples rate)^[i] st0).seed)).score := by
  induction n with
  | zero => simp
  | succ n ih =>
    rw [Function.iterate_succ_apply', Finset.sum_range_succ]
    show (learnStep op buf w h d fw nf samples rate _).matching_score = _
    rw [learnStep]
    rw [ih]
    ring

lemma constStub_iterate (k : ℚ) (buf : ℕ → ℚ)
    (w h d fw nf samples : ℕ) (rate : ℚ) (st0 : LearnState) (n : ℕ) :
    (learnStep (constStub k) buf w h d fw nf samples rate)^[n] st0 =
      { matching_score := st0.matching_score + n * k
        feature := st0.feature, feature_score := st0.feature_score
        itterations := st0.itterations + n, seed := st0.seed } := by
  induction n with
  | zero => simp
  | succ n ih =>
    rw [Function.iterate_succ_apply', ih]
    simp only [learnStep, constStub, LearnState.mk.injEq]
    refine ⟨?_, trivial, trivial, ?_, trivial⟩
    · push_cast
      ring
    · omega

lemma conv_learn_score (op : LearnOp) (img : ℕ → ℕ) (conv : Conv)
    (samples seed : ℕ) (scratch0 : ℕ → ℚ)
    (h : conv.current_layer < conv.no_of_layers) :
    (conv_learn op img conv samples seed true scratch0).1 =
      ((convLearnStep op img conv samples)^[samples]
        (convLearnSt0 img conv seed scratch0)).matching_score := by
  simp only [conv_learn]
  rw [if_neg (by omega), if_neg (by decide), learn_foldl_eq_iterate]

lemma conv_learn_current_layer (op : LearnOp) (img : ℕ → ℕ) (conv : Conv)
    (samples seed : ℕ) (scratch0 : ℕ → ℚ)
    (h : conv.current_layer < conv.no_of_layers) :
    (conv_learn op img conv samples seed true scratch0).2.1.current_layer =
      if ((convLearnStep op img conv samples)^[samples]
            (convLearnSt0 img conv seed scratch0)).matching_score <
          conv.match_threshold conv.current_layer
        then conv.current_layer + 1 else conv.current_layer := by
  have hfr := conv_feed_forward_frameEq img conv conv.current_layer
  simp only [conv_learn]
  rw [if_neg (by omega), if_neg (by decide), learn_foldl_eq_iterate]
  rw [show (conv_feed_forward img conv conv.current_layer).match_threshold =
    conv.match_threshold from hfr.match_threshold]
  by_cases hc : ((convLearnStep op img conv samples)^[samples]
      (convLearnSt0 img conv seed scratch0)).matching_score <
      conv.match_threshold conv.current_layer
  · rw [if_pos hc, if_pos hc]
    show (conv_feed_forward img conv conv.current_layer).current_layer + 1 =
      conv.current_layer + 1
    rw [hfr.current_layer]
  · rw [if_neg hc, if_neg hc]
    show (conv_feed_forward img conv conv.current_layer).current_layer =
      conv.current_layer
    exact hfr.current_layer

lemma convLearn_iterate_score (op : LearnOp) (img : ℕ → ℕ) (conv : Conv)
    (samples seed : ℕ) (scratch0 : ℕ → ℚ) (n : ℕ) :
    ((convLearnStep op img conv samples)^[n]
        (convLearnSt0 img conv seed scratch0)).matching_score =
      ∑ i ∈ Finset.range n, convLearnCallScore op img conv samples seed scratch0 i := by
  have hkey := learn_iterate_score op
    (((conv_feed_forward img conv conv.current_layer).layer conv.current_layer).layer)
    (((conv_feed_forward img conv conv.current_layer).layer conv.current_layer).width)
    (((conv_feed_forward img conv conv.current_layer).layer conv.current_layer).height)
    (((conv_feed_forward img conv conv.current_layer).layer conv.current_layer).depth)
    (((conv_feed_forward img conv conv.current_layer).layer conv.current_layer).feature_width)
    (((conv_feed_forward img conv conv.current_layer).layer conv.current_layer).no_of_features)
    samples ((conv_feed_forward img conv conv.current_layer).learning_rate)
    (convLearnSt0 img conv seed scratch0) n
  calc ((convLearnStep op img conv samples)^[n]
        (convLearnSt0 img conv seed scratch0)).matching_score
      = (convLearnSt0 img conv seed scratch0).matching_score +
          ∑ i ∈ Finset.range n,
            convLearnCallScore op img conv samples seed scratch0 i := hkey
    _ = _ := by
        show (0 : ℚ) + _ = _
        rw [zero_add]

lemma convLearn_constStub_score (img : ℕ → ℕ) (conv : Conv)
    (samples seed : ℕ) (scratch0 : ℕ → ℚ) (k : ℚ) :
    ((convLearnStep (constStub k) img conv samples)^[samples]
        (convLearnSt0 img conv seed scratch0)).matching_score = k * samples := by
  have h2 : (convLearnStep (constStub k) img conv samples)^[samples]
      (convLearnSt0 img conv seed scratch0) =
      { matching_score := (convLearnSt0 img conv seed scratch0).matching_score +
          samples * k
        feature := (convLearnSt0 img conv seed scratch0).feature
        feature_score := (convLearnSt0 img conv seed scratch0).feature_score
        itterations := (convLearnSt0 img conv seed scratch0).itterations + samples
        seed := (convLearnSt0 img conv seed scratch0).seed } :=
    constStub_iterate k
      (((conv_feed_forward img conv conv.current_layer).layer conv.current_layer).layer)
      (((conv_feed_forward img conv conv.current_layer).layer conv.current_layer).width)
      (((conv_feed_forward img conv conv.current_layer).layer conv.current_layer).height)
      (((conv_feed_forward img conv conv.current_layer).layer conv.current_layer).depth)
      (((conv_feed_forward img conv conv.current_layer).layer conv.current_layer).feature_width)
      (((conv_feed_forward img conv conv.current_layer).layer conv.current_layer).no_of_features)
      samples ((conv_feed_forward img conv conv.current_layer).learning_rate)
      (convLearnSt0 img conv seed scratch0) samples
  rw [h2]
  show (0 : ℚ) + (samples : ℚ) * k = k * samples
  ring

lemma conv_learn_pos_frame (op : LearnOp) (img : ℕ → ℕ) (conv : Conv)
    (samples seed : ℕ) (scratch0 : ℕ → ℚ)
    (h : conv.current_layer < conv.no_of_layers) :
    (conv_learn op img conv samples seed true scratch0).2.1.history = conv.history ∧
    (conv_learn op img conv samples seed true scratch0).2.1.history_index =
      conv.history_index ∧
    (conv_learn op img conv samples seed true scratch0).2.1.history_step =
      conv.history_step ∧
    (conv_learn op img conv samples seed true scratch0).2.1.no_of_layers =
      conv.no_of_layers ∧
    (∀ m, ((conv_learn op img conv samples seed true scratch0).2.1.layer m).depth =
      (conv.layer m).depth) ∧
    (∀ m, ((conv_learn op img conv samples seed true
        scratch0).2.1.layer m).no_of_features = (conv.layer m).no_of_features) := by
  have hfr := conv_feed_forward_frameEq img conv conv.current_layer
  simp only [conv_learn]
  rw [if_neg (by omega), if_neg (by decide)]
  split
  all_goals refine ⟨hfr.history, hfr.history_index, hfr.history_step,
    hfr.no_of_layers, ?_, ?_⟩
  all_goals
    intro m
    by_cases hm : m = conv.current_layer
  · subst hm
    show (Function.update (conv_feed_forward img conv conv.current_layer).layer
      conv.current_layer _ conv.current_layer).depth = _
    rw [Function.update_same]
    exact hfr.layer_depth conv.current_layer
  · show (Function.update (conv_feed_forward img conv conv.current_layer).layer
      conv.current_layer _ m).depth = _
    rw [Function.update_noteq hm]
    exact hfr.layer_depth m
  · subst hm
    show (Function.update (conv_feed_forward img conv conv.current_layer).layer
      conv.current_layer _ conv.current_layer).no_of_features = _
    rw [Function.update_same]
    exact hfr.layer_features conv.current_layer
  · show (Function.update (conv_feed_forward img conv conv.current_layer).layer
      conv.current_layer _ m).no_of_features = _
    rw [Function.update_noteq hm]
    exact hfr.layer_features m
  · subst hm
    show (Function.update (conv_feed_forward img conv conv.current_layer).layer
      conv.current_layer _ conv.current_layer).depth = _
    rw [Function.update_same]
    exact hfr.layer_depth conv.current_layer
  · show (Function.update (conv_feed_forward img conv conv.current_layer).layer
      conv.current_layer _ m).depth = _
    rw [Function.update_noteq hm]
    exact hfr.layer_depth m
  · subst hm
    show (Function.update (conv_feed_forward img conv conv.current_layer).layer
      conv.current_layer _ conv.current_layer).no_of_features = _
    rw [Function.update_same]
    exact hfr.layer_features conv.current_layer
  · show (Function.update (conv_feed_forward img conv conv.current_layer).layer
      conv.current_layer _ m).no_of_features = _
    rw [Function.update_noteq hm]
    exact hfr.layer_features m

/-! ### Lemmas for the concrete scenario of §8 -/

lemma byteNormalize_apply_lt (img : ℕ → ℕ) (n : ℕ) (buf : ℕ → ℚ) (j : ℕ)
    (hj : j < n) :
    byteNormalize img n buf j = (img j : ℚ) / 255 := by
  show writeList (fun i => i) (fun i => (img i : ℚ) / 255) (cdList n) buf j = _
  refine writeList_apply_mem _ _ _ _ _ _ ⟨j, mem_cdList.mpr hj, rfl⟩ ?_
  intro k _ hk
  rw [hk]

lemma byteNormalize_apply_ge (img : ℕ → ℕ) (n : ℕ) (buf : ℕ → ℚ) (j : ℕ)
    (hj : n ≤ j) :
    byteNormalize img n buf j = buf j := by
  show writeList (fun i => i) (fun i => (img i : ℚ) / 255) (cdList n) buf j = _
  refine writeList_apply_ne _ _ _ _ _ ?_
  intro k hk
  have := mem_cdList.mp hk
  omega

lemma byteNormalize_zero_of_zero (n : ℕ) (buf : ℕ → ℚ) (hbuf : ∀ j, buf j = 0)
    (j : ℕ) :
    byteNormalize (fun _ => 0) n buf j = 0 := by
  rcases Nat.lt_or_ge j n with hj | hj
  · rw [byteNormalize_apply_lt _ _ _ _ hj]
    norm_num
  · rw [byteNormalize_apply_ge _ _ _ _ hj]
    exact hbuf j

lemma resample_index_lt {H lw fw ly yy : ℕ} (hly : ly < lw) (hyy : yy < fw)
    (hH : 0 < H) (hfw : 0 < fw) :
    ly * H / lw + yy * ((ly + 1) * H / lw - ly * H / lw) / fw < H := by
  have hlw : 0 < lw := by omega
  have hb : (ly + 1) * H / lw ≤ H := by
    have h1 : (ly + 1) * H ≤ lw * H := Nat.mul_le_mul_right H (by omega)
    have h2 : (ly + 1) * H / lw ≤ lw * H / lw := Nat.div_le_div_right h1
    rwa [Nat.mul_div_cancel_left H hlw] at h2
  have ht : ly * H / lw ≤ (ly + 1) * H / lw :=
    Nat.div_le_div_right (Nat.mul_le_mul_right H (by omega))
  rcases Nat.eq_zero_or_pos ((ly + 1) * H / lw - ly * H / lw) with hm | hm
  · rw [hm]
    simp only [Nat.mul_zero, Nat.zero_div, Nat.add_zero]
    rw [Nat.div_lt_iff_lt_mul hlw, Nat.mul_comm H lw]
    exact (Nat.mul_lt_mul_right hH).mpr hly
  · have hstep : yy * ((ly + 1) * H / lw - ly * H / lw) / fw <
        (ly + 1) * H / lw - ly * H / lw := by
      rw [Nat.div_lt_iff_lt_mul hfw]
      calc yy * ((ly + 1) * H / lw - ly * H / lw) <
          fw * ((ly + 1) * H / lw - ly * H / lw) :=
            (Nat.mul_lt_mul_right hm).mpr hyy
        _ = ((ly + 1) * H / lw - ly * H / lw) * fw := Nat.mul_comm _ _
    omega

lemma convMatchSum_const_on (b feat : ℕ → ℚ) (c : ℚ) (W H D FW lw bound : ℕ)
    (hW : 0 < W) (hH : 0 < H) (hFW : 0 < FW)
    (hbound : ∀ tyy txx d, tyy < H → txx < W → d < D →
      (tyy * W + txx) * D + d < bound)
    (himg : ∀ j, j < bound → b j = c) (hfeat : ∀ j, feat j = 0)
    (ly lx f : ℕ) (hly : ly < lw) (hlx : lx < lw) :
    convMatchSum b W H D FW feat lw ly lx f = ((FW * FW * D : ℕ) : ℚ) * (c * c) := by
  have hterm : ∀ yy xx d, yy < FW → xx < FW → d < D →
      convTerm b W H D FW feat lw ly lx f yy xx d = c * c := by
    intro yy xx d hyy hxx hd
    have h1 : ly * H / lw + yy * ((ly + 1) * H / lw - ly * H / lw) / FW < H :=
      resample_index_lt hly hyy hH hFW
    have h2 : lx * W / lw + xx * ((lx + 1) * W / lw - lx * W / lw) / FW < W :=
      resample_index_lt hlx hxx hW hFW
    simp only [convTerm]
    rw [himg _ (hbound _ _ _ h1 h2 hd), hfeat]
    ring
  unfold convMatchSum
  rw [Finset.sum_congr rfl fun yy hyy => Finset.sum_congr rfl fun xx hxx =>
    Finset.sum_congr rfl fun d hd =>
      hterm yy xx d (Finset.mem_range.mp hyy) (Finset.mem_range.mp hxx)
        (Finset.mem_range.mp hd)]
  simp only [Finset.sum_const, Finset.card_range, nsmul_eq_mul]
  push_cast
  ring

lemma scenario_ff1_zero : ∀ j, j < 72 →
    ((conv_feed_forward (fun _ => 0) scenarioConv 1).layer 1).layer j = 1 := by
  intro j hj
  have h1 : conv_feed_forward (fun _ => 0) scenarioConv 1 =
      ffStep (normalizeConv (fun _ => 0) scenarioConv) 0 := rfl
  rw [h1]
  have hcond : (0 : ℕ) <
      (normalizeConv (fun _ => 0) scenarioConv).no_of_layers - 1 := by decide
  have h2 : ((ffStep (normalizeConv (fun _ => 0) scenarioConv) 0).layer 1).layer =
      convolve_image
        ((normalizeConv (fun _ => 0) scenarioConv).layer 0).layer
        ((normalizeConv (fun _ => 0) scenarioConv).layer 0).width
        ((normalizeConv (fun _ => 0) scenarioConv).layer 0).height
        ((normalizeConv (fun _ => 0) scenarioConv).layer 0).depth
        ((normalizeConv (fun _ => 0) scenarioConv).layer 0).feature_width
        ((normalizeConv (fun _ => 0) scenarioConv).layer 0).no_of_features
        ((normalizeConv (fun _ => 0) scenarioConv).layer 0).feature
        (((normalizeConv (fun _ => 0) scenarioConv).layer 1).layer)
        (((normalizeConv (fun _ => 0) scenarioConv).layer 1).width) :=
    ffStep_layer_buffer_write (normalizeConv (fun _ => 0) scenarioConv) 0 hcond
  rw [h2]
  show convolve_image (byteNormalize (fun _ => 0) 64 (fun _ => 0)) 8 8 1 4 2
    (fun _ => 0) (fun _ => 0) 6 j = 1
  refine convolve_image_apply_const _ 8 8 1 4 2 _ _ 6 1 ?_ j (by omega)
  intro ly lx f hly hlx hf
  rw [convMatch_eq_sum,
    convMatchSum_const_on (byteNormalize (fun _ => 0) 64 (fun _ => 0))
      (fun _ => 0) 0 8 8 1 4 6 64 (by omega) (by omega) (by omega)
      (fun tyy txx d ht hx hd => by omega)
      (fun i _ => byteNormalize_zero_of_zero 64 (fun _ => 0) (fun _ => rfl) i)
      (fun _ => rfl) ly lx f hly hlx]
  rw [feature_pixels]
  norm_num

lemma scenario_ff1_max : ∀ j, j < 72 →
    ((conv_feed_forward (fun _ => 255) scenarioConv 1).layer 1).layer j = 0 := by
  intro j hj
  have h1 : conv_feed_forward (fun _ => 255) scenarioConv 1 =
      ffStep (normalizeConv (fun _ => 255) scenarioConv) 0 := rfl
  rw [h1]
  have hcond : (0 : ℕ) <
      (normalizeConv (fun _ => 255) scenarioConv).no_of_layers - 1 := by decide
  have h2 : ((ffStep (normalizeConv (fun _ => 255) scenarioConv) 0).layer 1).layer =
      convolve_image
        ((normalizeConv (fun _ => 255) scenarioConv).layer 0).layer
        ((normalizeConv (fun _ => 255) scenarioConv).layer 0).width
        ((normalizeConv (fun _ => 255) scenarioConv).layer 0).height
        ((normalizeConv (fun _ => 255) scenarioConv).layer 0).depth
        ((normalizeConv (fun _ => 255) scenarioConv).layer 0).feature_width
        ((normalizeConv (fun _ => 255) scenarioConv).layer 0).no_of_features
        ((normalizeConv (fun _ => 255) scenarioConv).layer 0).feature
        (((normalizeConv (fun _ => 255) scenarioConv).layer 1).layer)
        (((normalizeConv (fun _ => 255) scenarioConv).layer 1).width) :=
    ffStep_layer_buffer_write (normalizeConv (fun _ => 255) scenarioConv) 0 hcond
  rw [h2]
  show convolve_image (byteNormalize (fun _ => 255) 64 (fun _ => 0)) 8 8 1 4 2
    (fun _ => 0) (fun _ => 0) 6 j = 0
  refine convolve_image_apply_const _ 8 8 1 4 2 _ _ 6 0 ?_ j (by omega)
  intro ly lx f hly hlx hf
  rw [convMatch_eq_sum,
    convMatchSum_const_on (byteNormalize (fun _ => 255) 64 (fun _ => 0))
      (fun _ => 0) 1 8 8 1 4 6 64 (by omega) (by omega) (by omega)
      (fun tyy txx d ht hx hd => by omega)
      (fun i hi => by rw [byteNormalize_apply_lt _ _ _ _ hi]; norm_num)
      (fun _ => rfl) ly lx f hly hlx]
  rw [feature_pixels]
  norm_num

lemma scenario_ff2_zero : ∀ j, j < 32 →
    (conv_feed_forward (fun _ => 0) scenarioConv 2).outputs j = 0 := by
  intro j hj
  have h1 : conv_feed_forward (fun _ => 0) scenarioConv 2 =
      ffStep (ffStep (normalizeConv (fun _ => 0) scenarioConv) 0) 1 := rfl
  rw [h1]
  have hcond : ¬ (1 : ℕ) <
      (ffStep (normalizeConv (fun _ => 0) scenarioConv) 0).no_of_layers - 1 := by
    decide
  have h2 := ffStep_outputs_write
    (ffStep (normalizeConv (fun _ => 0) scenarioConv) 0) 1 hcond
  rw [h2]
  show convolve_image
      ((ffStep (normalizeConv (fun _ => 0) scenarioConv) 0).layer 1).layer
      6 6 2 3 2 (fun _ => 0) (fun _ => 0) 4 j = 0
  refine convolve_image_apply_const _ 6 6 2 3 2 _ _ 4 0 ?_ j (by omega)
  intro ly lx f hly hlx hf
  rw [convMatch_eq_sum,
    convMatchSum_const_on
      (((ffStep (normalizeConv (fun _ => 0) scenarioConv) 0).layer 1).layer)
      (fun _ => 0) 1 6 6 2 3 4 72 (by omega) (by omega) (by omega)
      (fun tyy txx d ht hx hd => by omega)
      (fun i hi => scenario_ff1_zero i hi)
      (fun _ => rfl) ly lx f hly hlx]
  rw [feature_pixels]
  norm_num

lemma scenario_ff2_max : ∀ j, j < 32 →
    (conv_feed_forward (fun _ => 255) scenarioConv 2).outputs j = 1 := by
  intro j hj
  have h1 : conv_feed_forward (fun _ => 255) scenarioConv 2 =
      ffStep (ffStep (normalizeConv (fun _ => 255) scenarioConv) 0) 1 := rfl
  rw [h1]
  have hcond : ¬ (1 : ℕ) <
      (ffStep (normalizeConv (fun _ => 255) scenarioConv) 0).no_of_layers - 1 := by
    decide
  have h2 := ffStep_outputs_write
    (ffStep (normalizeConv (fun _ => 255) scenarioConv) 0) 1 hcond
  rw [h2]
  show convolve_image
      ((ffStep (normalizeConv (fun _ => 255) scenarioConv) 0).layer 1).layer
      6 6 2 3 2 (fun _ => 0) (fun _ => 0) 4 j = 1
  refine convolve_image_apply_const _ 6 6 2 3 2 _ _ 4 1 ?_ j (by omega)
  intro ly lx f hly hlx hf
  rw [convMatch_eq_sum,
    convMatchSum_const_on
      (((ffStep (normalizeConv (fun _ => 255) scenarioConv) 0).layer 1).layer)
      (fun _ => 0) 0 6 6 2 3 4 72 (by omega) (by omega) (by omega)
      (fun tyy txx d ht hx hd => by omega)
      (fun i hi => scenario_ff1_max i hi)
      (fun _ => rfl) ly lx f hly hlx]
  rw [feature_pixels]
  norm_num

/-! ### Claim C1 -/

/-- C1: for every source volume, feature bank and output resolution,
`convolve_image` stores, at output index
`((layer_y*layer_width)+layer_x)*no_of_features + f`, the value
`1 - (sum of squared differences between the nearest-neighbor-resampled
source sub-region and the feature's pixels) / (feature_width^2 * depth)`,
and leaves every output index not of that form unchanged (no side effect
other than writing those output cells). -/
theorem convolve_image_writes_similarity (img : ℕ → ℚ)
    (img_width img_height img_depth feature_width no_of_features : ℕ)
    (feature : ℕ → ℚ) (layer : ℕ → ℚ) (layer_width : ℕ)
    (layer_y layer_x f : ℕ)
    (hy : layer_y < layer_width) (hx : layer_x < layer_width)
    (hf : f < no_of_features) :
    convolve_image img img_width img_height img_depth feature_width no_of_features
        feature layer layer_width
        ((layer_y * layer_width + layer_x) * no_of_features + f) =
      1 - convMatchSum img img_width img_height img_depth feature_width feature
            layer_width layer_y layer_x f /
          ((feature_width * feature_width * img_depth : ℕ) : ℚ) ∧
    ∀ n, (∀ ly lx g, ly < layer_width → lx < layer_width → g < no_of_features →
        (ly * layer_width + lx) * no_of_features + g ≠ n) →
      convolve_image img img_width img_height img_depth feature_width no_of_features
        feature layer layer_width n = layer n := by
  constructor
  · rw [convolve_image_apply_written img img_width img_height img_depth feature_width
      no_of_features feature layer layer_width layer_y layer_x f hy hx hf]
    rw [feature_pixels, mul_one_div]
  · intro n hn
    exact convolve_image_apply_untouched img img_width img_height img_depth
      feature_width no_of_features feature layer layer_width n hn

/-- Witness for C1 at a concrete input. -/
theorem convolve_image_writes_similarity_witness :
    0 < 1 ∧ 0 < 1 ∧ 0 < 1 ∧
    (convolve_image (fun _ => 0) 1 1 1 1 1 (fun _ => 0) (fun _ => 0) 1
        ((0 * 1 + 0) * 1 + 0) =
      1 - convMatchSum (fun _ => 0) 1 1 1 1 (fun _ => 0) 1 0 0 0 /
          ((1 * 1 * 1 : ℕ) : ℚ) ∧
    ∀ n, (∀ ly lx g, ly < 1 → lx < 1 → g < 1 → (ly * 1 + lx) * 1 + g ≠ n) →
      convolve_image (fun _ => 0) 1 1 1 1 1 (fun _ => 0) (fun _ => 0) 1 n =
        (fun _ => (0 : ℚ)) n) :=
  ⟨by decide, by decide, by decide,
    convolve_image_writes_similarity (fun _ => 0) 1 1 1 1 1 (fun _ => 0)
      (fun _ => 0) 1 0 0 0 (by decide) (by decide) (by decide)⟩

/-! ### Claim C10 -/

/-- C10: every value `convolve_image` writes is at most `1`: each output
index either holds a similarity value bounded above by `1`, or is
untouched.  The bound holds because the accumulated squared-difference sum
is non-negative and is scaled by the non-negative factor
`1/(feature_width^2*depth)` before being subtracted from `1`. -/
theorem convolve_image_le_one (img : ℕ → ℚ)
    (img_width img_height img_depth feature_width no_of_features : ℕ)
    (feature : ℕ → ℚ) (layer : ℕ → ℚ) (layer_width : ℕ)
    (hfw : 0 < feature_width) (hdep : 0 < img_depth) (n : ℕ) :
    convolve_image img img_width img_height img_depth feature_width no_of_features
        feature layer layer_width n ≤ 1 ∨
    convolve_image img img_width img_height img_depth feature_width no_of_features
        feature layer layer_width n = layer n := by
  by_cases hw : ∃ t : ℕ × ℕ × ℕ, t.1 < layer_width ∧ t.2.1 < layer_width ∧
      t.2.2 < no_of_features ∧ (t.1 * layer_width + t.2.1) * no_of_features + t.2.2 = n
  · obtain ⟨⟨ly, lx, f⟩, h1, h2, h3, haddr⟩ := hw
    left
    rw [← haddr]
    rw [convolve_image_apply_written img img_width img_height img_depth feature_width
      no_of_features feature layer layer_width ly lx f h1 h2 h3]
    have hsum : 0 ≤ convMatchSum img img_width img_height img_depth feature_width
        feature layer_width ly lx f := by
      refine Finset.sum_nonneg fun yy _ => Finset.sum_nonneg fun xx _ =>
        Finset.sum_nonneg fun d _ => ?_
      exact mul_self_nonneg _
    have hfp : 0 ≤ feature_pixels feature_width img_depth := by
      unfold feature_pixels
      positivity
    nlinarith
  · right
    refine convolve_image_apply_untouched img img_width img_height img_depth
      feature_width no_of_features feature layer layer_width n ?_
    intro ly lx g h1 h2 h3 heq
    exact hw ⟨(ly, lx, g), h1, h2, h3, heq⟩

/-- Witness for C10 at a concrete input. -/
theorem convolve_image_le_one_witness :
    0 < 1 ∧ 0 < 1 ∧
    (convolve_image (fun _ => 0) 1 1 1 1 1 (fun _ => 0) (fun _ => 0) 1 0 ≤ 1 ∨
      convolve_image (fun _ => 0) 1 1 1 1 1 (fun _ => 0) (fun _ => 0) 1 0 =
        (fun _ => (0 : ℚ)) 0) :=
  ⟨by decide, by decide,
    convolve_image_le_one (fun _ => 0) 1 1 1 1 1 (fun _ => 0) (fun _ => 0) 1
      (by decide) (by decide) 0⟩

/-! ### Claim C6 -/

/-- C6: in the terminal training state (`current_layer >= no_of_layers`),
`conv_learn` returns `0` immediately and leaves the entire network state
and the random seed unchanged, for every image, sample count, seed and
stub operation. -/
theorem conv_learn_terminal_noop (op : LearnOp) (img : ℕ → ℕ) (conv : Conv)
    (samples seed : ℕ) (alloc_ok : Bool) (scratch0 : ℕ → ℚ)
    (h : conv.no_of_layers ≤ conv.current_layer) :
    conv_learn op img conv samples seed alloc_ok scratch0 = (0, conv, seed) := by
  unfold conv_learn
  simp [h]

/-- Witness for C6 at a concrete input. -/
theorem conv_learn_terminal_noop_witness :
    demoConv.no_of_layers ≤ demoConv.current_layer ∧
    conv_learn (constStub 2) (fun _ => 0) demoConv 3 7 true (fun _ => 0) =
      (0, demoConv, 7) :=
  ⟨by decide,
    conv_learn_terminal_noop (constStub 2) (fun _ => 0) demoConv 3 7 true
      (fun _ => 0) (by decide)⟩

/-! ### Claim C8 -/

/-- C8: for `0 < L <= no_of_layers`, `conv_feed_forward` writes layer 0's
activation buffer (the byte-normalized image) and the activation buffers of
layers `1 .. min(L, no_of_layers-1)` (each the convolution of its
predecessor), writes the outputs buffer only when `L = no_of_layers`
(for `L < no_of_layers` it is untouched), and leaves the activation buffers
of every layer with index strictly greater than `L`, as well as every
feature bank, untouched. -/
theorem conv_feed_forward_frame (img : ℕ → ℕ) (conv : Conv) (L : ℕ)
    (h0 : 0 < L) (_hL : L ≤ conv.no_of_layers) :
    (∀ m, L < m →
      ((conv_feed_forward img conv L).layer m).layer = (conv.layer m).layer) ∧
    (L < conv.no_of_layers →
      (conv_feed_forward img conv L).outputs = conv.outputs) ∧
    ((conv_feed_forward img conv L).layer 0).layer =
      byteNormalize img
        ((conv.layer 0).width * (conv.layer 0).height * (conv.layer 0).depth)
        ((conv.layer 0).layer) ∧
    (∀ m, 1 ≤ m → m ≤ L → m < conv.no_of_layers →
      ((conv_feed_forward img conv L).layer m).layer =
        convolve_image (((conv_feed_forward img conv L).layer (m - 1)).layer)
          ((conv.layer (m - 1)).width) ((conv.layer (m - 1)).height)
          ((conv.layer (m - 1)).depth) ((conv.layer (m - 1)).feature_width)
          ((conv.layer (m - 1)).no_of_features) ((conv.layer (m - 1)).feature)
          ((conv.layer m).layer) ((conv.layer m).width)) ∧
    (L = conv.no_of_layers →
      (conv_feed_forward img conv L).outputs =
        convolve_image (((conv_feed_forward img conv L).layer (L - 1)).layer)
          ((conv.layer (L - 1)).width) ((conv.layer (L - 1)).height)
          ((conv.layer (L - 1)).depth) ((conv.layer (L - 1)).feature_width)
          ((conv.layer (L - 1)).no_of_features) ((conv.layer (L - 1)).feature)
          conv.outputs conv.outputs_width) ∧
    (∀ m, ((conv_feed_forward img conv L).layer m).feature =
      (conv.layer m).feature) := by
  set conv0 := normalizeConv img conv with hconv0
  have hfr0 := normalizeConv_frameEq img conv
  have hshow : conv_feed_forward img conv L = ffLoop conv0 L := rfl
  refine ⟨?_, ?_, ?_, ?_, ?_, ?_⟩
  · intro m hm
    rw [hshow, ffLoop_layer_buffer_untouched conv0 L m (Or.inr hm),
      normalizeConv_layer_buffer_ne img conv m (by omega)]
  · intro hlt
    rw [hshow, ffLoop_outputs_untouched conv0 L, normalizeConv_outputs]
    intro l hl
    have : conv0.no_of_layers = conv.no_of_layers := hfr0.no_of_layers
    omega
  · rw [hshow, ffLoop_layer_buffer_untouched conv0 L 0 (Or.inl rfl),
      normalizeConv_layer0]
  · intro m hm1 hm2 hm3
    have hm3' : m < conv0.no_of_layers := by rw [hfr0.no_of_layers]; exact hm3
    rw [hshow, ffLoop_layer_buffer_written conv0 L m hm1 hm2 hm3',
      hfr0.layer_width (m - 1), hfr0.layer_height (m - 1), hfr0.layer_depth (m - 1),
      hfr0.layer_feature_width (m - 1), hfr0.layer_features (m - 1),
      hfr0.layer_feature (m - 1),
      normalizeConv_layer_buffer_ne img conv m (by omega), hfr0.layer_width m]
  · intro heq
    have hL0 : L = conv0.no_of_layers := by rw [hfr0.no_of_layers]; exact heq
    rw [hshow, hL0, ffLoop_outputs_final conv0 (by omega),
      hfr0.layer_width (conv0.no_of_layers - 1), hfr0.layer_height (conv0.no_of_layers - 1),
      hfr0.layer_depth (conv0.no_of_layers - 1),
      hfr0.layer_feature_width (conv0.no_of_layers - 1),
      hfr0.layer_features (conv0.no_of_layers - 1),
      hfr0.layer_feature (conv0.no_of_layers - 1),
      normalizeConv_outputs, hfr0.outputs_width, hfr0.no_of_layers]
  · exact (conv_feed_forward_frameEq img conv L).layer_feature

/-- Witness for C8 at a concrete input. -/
theorem conv_feed_forward_frame_witness :
    0 < 1 ∧ 1 ≤ demoConv.no_of_layers ∧
    ((∀ m, 1 < m →
      ((conv_feed_forward (fun _ => 0) demoConv 1).layer m).layer =
        (demoConv.layer m).layer) ∧
    (1 < demoConv.no_of_layers →
      (conv_feed_forward (fun _ => 0) demoConv 1).outputs = demoConv.outputs) ∧
    ((conv_feed_forward (fun _ => 0) demoConv 1).layer 0).layer =
      byteNormalize (fun _ => 0)
        ((demoConv.layer 0).width * (demoConv.layer 0).height * (demoConv.layer 0).depth)
        ((demoConv.layer 0).layer) ∧
    (∀ m, 1 ≤ m → m ≤ 1 → m < demoConv.no_of_layers →
      ((conv_feed_forward (fun _ => 0) demoConv 1).layer m).layer =
        convolve_image (((conv_feed_forward (fun _ => 0) demoConv 1).layer (m - 1)).layer)
          ((demoConv.layer (m - 1)).width) ((demoConv.layer (m - 1)).height)
          ((demoConv.layer (m - 1)).depth) ((demoConv.layer (m - 1)).feature_width)
          ((demoConv.layer (m - 1)).no_of_features) ((demoConv.layer (m - 1)).feature)
          ((demoConv.layer m).layer) ((demoConv.layer m).width)) ∧
    (1 = demoConv.no_of_layers →
      (conv_feed_forward (fun _ => 0) demoConv 1).outputs =
        convolve_image (((conv_feed_forward (fun _ => 0) demoConv 1).layer (1 - 1)).layer)
          ((demoConv.layer (1 - 1)).width) ((demoConv.layer (1 - 1)).height)
          ((demoConv.layer (1 - 1)).depth) ((demoConv.layer (1 - 1)).feature_width)
          ((demoConv.layer (1 - 1)).no_of_features) ((demoConv.layer (1 - 1)).feature)
          demoConv.outputs demoConv.outputs_width) ∧
    (∀ m, ((conv_feed_forward (fun _ => 0) demoConv 1).layer m).feature =
      (demoConv.layer m).feature)) :=
  ⟨by decide, by decide,
    conv_feed_forward_frame (fun _ => 0) demoConv 1 (by decide) (by decide)⟩

/-! ### Claim C2 -/

/-- C2: for a network still in training (and the scratch allocation
succeeding), `conv_learn` returns the accumulated (not averaged) sum of
the scores of the `samples` invocations of the external learning
operation, and advances `current_layer` by exactly one iff that total is
strictly below `match_threshold[current_layer]`; in particular, with a
deterministic stub returning the fixed score `k` per call, it returns
`k*samples` and advances iff `k*samples < match_threshold[current_layer]`. -/
theorem conv_learn_accumulates (op : LearnOp) (img : ℕ → ℕ) (conv : Conv)
    (samples seed : ℕ) (scratch0 : ℕ → ℚ)
    (h : conv.current_layer < conv.no_of_layers) :
    ((conv_learn op img conv samples seed true scratch0).1 =
      ∑ i ∈ Finset.range samples,
        convLearnCallScore op img conv samples seed scratch0 i) ∧
    ((conv_learn op img conv samples seed true scratch0).2.1.current_layer =
      if (conv_learn op img conv samples seed true scratch0).1 <
          conv.match_threshold conv.current_layer
        then conv.current_layer + 1 else conv.current_layer) ∧
    ∀ k : ℚ,
      (conv_learn (constStub k) img conv samples seed true scratch0).1 =
        k * samples ∧
      ((conv_learn (constStub k) img conv samples seed true
          scratch0).2.1.current_layer = conv.current_layer + 1 ↔
        k * samples < conv.match_threshold conv.current_layer) := by
  refine ⟨?_, ?_, ?_⟩
  · rw [conv_learn_score op img conv samples seed scratch0 h,
      convLearn_iterate_score]
  · rw [conv_learn_current_layer op img conv samples seed scratch0 h,
      conv_learn_score op img conv samples seed scratch0 h]
  · intro k
    refine ⟨?_, ?_⟩
    · rw [conv_learn_score (constStub k) img conv samples seed scratch0 h,
        convLearn_constStub_score]
    · rw [conv_learn_current_layer (constStub k) img conv samples seed scratch0 h,
        convLearn_constStub_score]
      constructor
      · intro hif
        by_contra hc
        rw [if_neg hc] at hif
        omega
      · intro hc
        rw [if_pos hc]

/-- Witness for C2 at a concrete input. -/
theorem conv_learn_accumulates_witness :
    demoTrainConv.current_layer < demoTrainConv.no_of_layers ∧
    (((conv_learn (constStub 1) (fun _ => 0) demoTrainConv 2 5 true (fun _ => 0)).1 =
      ∑ i ∈ Finset.range 2,
        convLearnCallScore (constStub 1) (fun _ => 0) demoTrainConv 2 5 (fun _ => 0) i) ∧
    ((conv_learn (constStub 1) (fun _ => 0) demoTrainConv 2 5 true
        (fun _ => 0)).2.1.current_layer =
      if (conv_learn (constStub 1) (fun _ => 0) demoTrainConv 2 5 true (fun _ => 0)).1 <
          demoTrainConv.match_threshold demoTrainConv.current_layer
        then demoTrainConv.current_layer + 1 else demoTrainConv.current_layer) ∧
    ∀ k : ℚ,
      (conv_learn (constStub k) (fun _ => 0) demoTrainConv 2 5 true (fun _ => 0)).1 =
        k * 2 ∧
      ((conv_learn (constStub k) (fun _ => 0) demoTrainConv 2 5 true
          (fun _ => 0)).2.1.current_layer = demoTrainConv.current_layer + 1 ↔
        k * 2 < demoTrainConv.match_threshold demoTrainConv.current_layer)) :=
  ⟨by decide,
    conv_learn_accumulates (constStub 1) (fun _ => 0) demoTrainConv 2 5
      (fun _ => 0) (by decide)⟩

/-! ### Claim C9 -/

/-- C9 counterexample: a concrete successful training-step call
(`current_layer < no_of_layers`, scratch allocation succeeding) after
which `history`, `history_index` and `history_step` are all exactly
unchanged — `conv_learn` never appends to the error-history buffer. -/
theorem conv_learn_no_history_append :
    demoTrainConv.current_layer < demoTrainConv.no_of_layers ∧
    (conv_learn (constStub 0) (fun _ => 0) demoTrainConv 1 0 true
      (fun _ => 0)).2.1.history = demoTrainConv.history ∧
    (conv_learn (constStub 0) (fun _ => 0) demoTrainConv 1 0 true
      (fun _ => 0)).2.1.history_index = demoTrainConv.history_index ∧
    (conv_learn (constStub 0) (fun _ => 0) demoTrainConv 1 0 true
      (fun _ => 0)).2.1.history_step = demoTrainConv.history_step := by
  obtain ⟨h1, h2, h3, -, -, -⟩ :=
    conv_learn_pos_frame (constStub 0) (fun _ => 0) demoTrainConv 1 0
      (fun _ => 0) (by decide)
  exact ⟨by decide, h1, h2, h3⟩

/-- C9 amended: every `conv_learn` call — terminal, scratch-allocation
failure, or a successful training step — leaves the diagnostic
error-history fields `history`, `history_step` and `history_index` of the
network unchanged: the training path of this module never populates the
error-history buffer. -/
theorem conv_learn_history_unchanged (op : LearnOp) (img : ℕ → ℕ) (conv : Conv)
    (samples seed : ℕ) (alloc_ok : Bool) (scratch0 : ℕ → ℚ) :
    (conv_learn op img conv samples seed alloc_ok scratch0).2.1.history =
      conv.history ∧
    (conv_learn op img conv samples seed alloc_ok scratch0).2.1.history_index =
      conv.history_index ∧
    (conv_learn op img conv samples seed alloc_ok scratch0).2.1.history_step =
      conv.history_step := by
  by_cases hterm : conv.no_of_layers ≤ conv.current_layer
  · unfold conv_learn
    rw [if_pos hterm]
    exact ⟨rfl, rfl, rfl⟩
  · cases alloc_ok with
    | false =>
      unfold conv_learn
      rw [if_neg hterm, if_pos rfl]
      exact ⟨rfl, rfl, rfl⟩
    | true =>
      obtain ⟨h1, h2, h3, -, -, -⟩ :=
        conv_learn_pos_frame op img conv samples seed scratch0 (by omega)
      exact ⟨h1, h2, h3⟩

/-! ### Characterization of `conv_init` -/

section ConvInitLemmas

variable (alloc : ℕ → Bool)
variable (image_width image_height image_depth no_of_features feature_width
  final_image_width final_image_height no_of_layers : ℕ)

lemma initLayersAux_ok_layers :
    ∀ (r l : ℕ) (layers res : ℕ → ConvLayer),
      (∀ m, m < l → layers m = layerSpec image_width image_height image_depth
        no_of_features feature_width final_image_width final_image_height
        no_of_layers m) →
      initLayersAux alloc image_width image_height image_depth no_of_features
        feature_width final_image_width final_image_height no_of_layers
        r l layers = .ok res →
      (∀ m, m < l + r → res m = layerSpec image_width image_height image_depth
        no_of_features feature_width final_image_width final_image_height
        no_of_layers m) ∧
      (∀ m, l + r ≤ m → res m = layers m) := by
  intro r
  induction r with
  | zero =>
    intro l layers res hinv hok
    obtain rfl : layers = res := by
      simpa [initLayersAux] using hok
    exact ⟨fun m hm => hinv m (by omega), fun m _ => rfl⟩
  | succ r ih =>
    intro l layers res hinv hok
    simp only [initLayersAux] at hok
    by_cases h1 : alloc (2 * l) = false
    · rw [if_pos h1] at hok
      cases hok
    · rw [if_neg h1] at hok
      by_cases h2 : alloc (2 * l + 1) = false
      · rw [if_pos h2] at hok
        cases hok
      · rw [if_neg h2] at hok
        have hinv' : ∀ m, m < l + 1 →
            Function.update layers l
              ({ width := image_width -
                  (image_width - final_image_width) * l / no_of_layers
                 height := if l = 0 then
                     image_height -
                       (image_height - final_image_height) * l / no_of_layers
                   else image_width -
                     (image_width - final_image_width) * l / no_of_layers
                 depth := if l = 0 then image_depth
                   else (layers (l - 1)).no_of_features
                 no_of_features := no_of_features
                 feature_width := if feature_width *
                       (image_width -
                         (image_width - final_image_width) * l / no_of_layers) /
                       image_width < 3 then 3
                   else feature_width *
                       (image_width -
                         (image_width - final_image_width) * l / no_of_layers) /
                       image_width
                 layer := fun _ => 0
                 feature := fun _ => 0 } : ConvLayer) m =
              layerSpec image_width image_height image_depth no_of_features
                feature_width final_image_width final_image_height
                no_of_layers m := by
          intro m hm
          by_cases hml : m = l
          · subst hml
            rw [Function.update_same]
            by_cases hl : m = 0
            · subst hl
              rfl
            · have hno : (layers (m - 1)).no_of_features = no_of_features := by
                rw [hinv (m - 1) (by omega)]
                rfl
              simp only [layerSpec, if_neg hl, hno]
          · rw [Function.update_noteq hml]
            exact hinv m (by omega)
        obtain ⟨hall, hbeyond⟩ := ih (l + 1) _ res hinv' hok
        refine ⟨fun m hm => hall m (by omega), fun m hm => ?_⟩
        rw [hbeyond m (by omega), Function.update_noteq (by omega)]

lemma initLayersAux_ok_of_alloc :
    ∀ (r l : ℕ) (layers : ℕ → ConvLayer),
      (∀ i, 2 * l ≤ i → i < 2 * (l + r) → alloc i = true) →
      ∃ res, initLayersAux alloc image_width image_height image_depth
        no_of_features feature_width final_image_width final_image_height
        no_of_layers r l layers = .ok res := by
  intro r
  induction r with
  | zero => intro l layers _; exact ⟨layers, rfl⟩
  | succ r ih =>
    intro l layers hall
    have h1 : alloc (2 * l) = true := hall _ (by omega) (by omega)
    have h2 : alloc (2 * l + 1) = true := hall _ (by omega) (by omega)
    simp only [initLayersAux]
    rw [if_neg (by simp [h1]), if_neg (by simp [h2])]
    exact ih (l + 1) _ fun i hi1 hi2 => hall i (by omega) (by omega)

lemma initLayersAux_ok_alloc :
    ∀ (r l : ℕ) (layers res : ℕ → ConvLayer),
      initLayersAux alloc image_width image_height image_depth no_of_features
        feature_width final_image_width final_image_height no_of_layers
        r l layers = .ok res →
      ∀ i, 2 * l ≤ i → i < 2 * (l + r) → alloc i = true := by
  intro r
  induction r with
  | zero => intro l layers res _ i hi1 hi2; omega
  | succ r ih =>
    intro l layers res hok i hi1 hi2
    simp only [initLayersAux] at hok
    by_cases h1 : alloc (2 * l) = false
    · rw [if_pos h1] at hok; cases hok
    · rw [if_neg h1] at hok
      by_cases h2 : alloc (2 * l + 1) = false
      · rw [if_pos h2] at hok; cases hok
      · rw [if_neg h2] at hok
        have h1' : alloc (2 * l) = true := by
          revert h1; cases alloc (2 * l) <;> simp
        have h2' : alloc (2 * l + 1) = true := by
          revert h2; cases alloc (2 * l + 1) <;> simp
        by_cases hi : i < 2 * (l + 1)
        · rcases Nat.eq_or_lt_of_le hi1 with h | h
          · exact h ▸ h1'
          · have : i = 2 * l + 1 := by omega
            rw [this]; exact h2'
        · exact ih (l + 1) _ res hok i (by omega) (by omega)

lemma initLayersAux_error :
    ∀ (r l : ℕ) (layers : ℕ → ConvLayer) (i : ℕ),
      2 * l ≤ i → i < 2 * (l + r) → alloc i = false →
      (∀ j, 2 * l ≤ j → j < i → alloc j = true) →
      initLayersAux alloc image_width image_height image_depth no_of_features
        feature_width final_image_width final_image_height no_of_layers
        r l layers = .error (if i % 2 = 0 then 1 else 2) := by
  intro r
  induction r with
  | zero => intro l layers i hi1 hi2 _ _; omega
  | succ r ih =>
    intro l layers i hi1 hi2 hfail hbefore
    simp only [initLayersAux]
    by_cases hi0 : i = 2 * l
    · rw [if_pos (hi0 ▸ hfail), if_pos (show i % 2 = 0 by omega)]
    · by_cases hi1' : i = 2 * l + 1
      · have h2l : alloc (2 * l) = true := hbefore _ (by omega) (by omega)
        rw [if_neg (by simp [h2l]), if_pos (hi1' ▸ hfail),
          if_neg (show ¬ i % 2 = 0 by omega)]
      · have h2l : alloc (2 * l) = true := hbefore _ (by omega) (by omega)
        have h2l1 : alloc (2 * l + 1) = true := hbefore _ (by omega) (by omega)
        rw [if_neg (by simp [h2l]), if_neg (by simp [h2l1])]
        exact ih (l + 1) _ i (by omega) (by omega) hfail
          fun j hj1 hj2 => hbefore j (by omega) hj2

lemma conv_init_ok_elim (mt : ℕ → ℚ) (c : Conv)
    (hok : conv_init alloc no_of_layers image_width image_height image_depth
      no_of_features feature_width final_image_width final_image_height mt =
      .ok c) :
    ∃ layers,
      initLayersAux alloc image_width image_height image_depth no_of_features
        feature_width final_image_width final_image_height no_of_layers
        no_of_layers 0 (fun _ => defaultLayer) = .ok layers ∧
      alloc (2 * no_of_layers) = true ∧ alloc (2 * no_of_layers + 1) = true ∧
      c = { no_of_layers := no_of_layers, current_layer := 0
            learning_rate := 1 / 10, itterations := 0, training_ctr := 0
            layer := layers, outputs_width := final_image_width
            no_of_outputs := final_image_width * final_image_width *
              (layers (no_of_layers - 1)).depth
            outputs := fun _ => 0
            match_threshold := fun i => if i < no_of_layers then mt i else 0
            history := fun _ => 0, history_index := 0, history_step := 0 } := by
  unfold conv_init at hok
  cases hinit : initLayersAux alloc image_width image_height image_depth
      no_of_features feature_width final_image_width final_image_height
      no_of_layers no_of_layers 0 (fun _ => defaultLayer) with
  | error e => simp only [hinit] at hok; cases hok
  | ok layers =>
    simp only [hinit] at hok
    by_cases h3 : alloc (2 * no_of_layers) = false
    · rw [if_pos h3] at hok; cases hok
    · rw [if_neg h3] at hok
      by_cases h4 : alloc (2 * no_of_layers + 1) = false
      · rw [if_pos h4] at hok; cases hok
      · rw [if_neg h4] at hok
        have h3' : alloc (2 * no_of_layers) = true := by
          revert h3; cases alloc (2 * no_of_layers) <;> simp
        have h4' : alloc (2 * no_of_layers + 1) = true := by
          revert h4; cases alloc (2 * no_of_layers + 1) <;> simp
        injection hok with hrec
        exact ⟨layers, rfl, h3', h4', hrec.symm⟩

lemma conv_init_ok_of_alloc (mt : ℕ → ℚ)
    (hall : ∀ i, i < 2 * no_of_layers + 2 → alloc i = true) :
    ∃ c, conv_init alloc no_of_layers image_width image_height image_depth
      no_of_features feature_width final_image_width final_image_height mt =
      .ok c := by
  obtain ⟨layers, hinit⟩ := initLayersAux_ok_of_alloc alloc image_width
    image_height image_depth no_of_features feature_width final_image_width
    final_image_height no_of_layers no_of_layers 0 (fun _ => defaultLayer)
    fun i h1 h2 => hall i (by omega)
  unfold conv_init
  simp only [hinit]
  rw [if_neg (by simp [hall (2 * no_of_layers) (by omega)]),
    if_neg (by simp [hall (2 * no_of_layers + 1) (by omega)])]
  exact ⟨_, rfl⟩

lemma conv_init_error_layers (mt : ℕ → ℚ) (i : ℕ)
    (hi : i < 2 * no_of_layers) (hfail : alloc i = false)
    (hbefore : ∀ j, j < i → alloc j = true) :
    conv_init alloc no_of_layers image_width image_height image_depth
      no_of_features feature_width final_image_width final_image_height mt =
      .error (if i % 2 = 0 then 1 else 2) := by
  have herr := initLayersAux_error alloc image_width image_height image_depth
    no_of_features feature_width final_image_width final_image_height
    no_of_layers no_of_layers 0 (fun _ => defaultLayer) i (by omega) (by omega)
    hfail fun j h1 h2 => hbefore j h2
  unfold conv_init
  simp only [herr]

lemma conv_init_error_outputs (mt : ℕ → ℚ)
    (hfail : alloc (2 * no_of_layers) = false)
    (hbefore : ∀ j, j < 2 * no_of_layers → alloc j = true) :
    conv_init alloc no_of_layers image_width image_height image_depth
      no_of_features feature_width final_image_width final_image_height mt =
      .error 3 := by
  obtain ⟨layers, hinit⟩ := initLayersAux_ok_of_alloc alloc image_width
    image_height image_depth no_of_features feature_width final_image_width
    final_image_height no_of_layers no_of_layers 0 (fun _ => defaultLayer)
    fun i h1 h2 => hbefore i (by omega)
  unfold conv_init
  simp only [hinit]
  rw [if_pos hfail]

lemma conv_init_error_threshold (mt : ℕ → ℚ)
    (hfail : alloc (2 * no_of_layers + 1) = false)
    (hbefore : ∀ j, j < 2 * no_of_layers + 1 → alloc j = true) :
    conv_init alloc no_of_layers image_width image_height image_depth
      no_of_features feature_width final_image_width final_image_height mt =
      .error 4 := by
  obtain ⟨layers, hinit⟩ := initLayersAux_ok_of_alloc alloc image_width
    image_height image_depth no_of_features feature_width final_image_width
    final_image_height no_of_layers no_of_layers 0 (fun _ => defaultLayer)
    fun i h1 h2 => hbefore i (by omega)
  unfold conv_init
  simp only [hinit]
  rw [if_neg (by simp [hbefore (2 * no_of_layers) (by omega)]), if_pos hfail]

lemma conv_init_layerSpec (mt : ℕ → ℚ) (c : Conv)
    (hok : conv_init alloc no_of_layers image_width image_height image_depth
      no_of_features feature_width final_image_width final_image_height mt =
      .ok c) :
    ∀ l, l < no_of_layers →
      c.layer l = layerSpec image_width image_height image_depth
        no_of_features feature_width final_image_width final_image_height
        no_of_layers l := by
  obtain ⟨layers, hinit, -, -, hc⟩ := conv_init_ok_elim alloc image_width
    image_height image_depth no_of_features feature_width final_image_width
    final_image_height no_of_layers mt c hok
  have hclayer : c.layer = layers := by rw [hc]
  obtain ⟨hall, -⟩ := initLayersAux_ok_layers alloc image_width image_height
    image_depth no_of_features feature_width final_image_width
    final_image_height no_of_layers no_of_layers 0 (fun _ => defaultLayer)
    layers (fun m hm => absurd hm (by omega)) hinit
  intro l hl
  rw [hclayer]
  exact hall l (by omega)

end ConvInitLemmas

lemma conv_learn_preserves_layer_geometry (op : LearnOp) (img : ℕ → ℕ)
    (conv : Conv) (samples seed : ℕ) (alloc_ok : Bool) (scratch0 : ℕ → ℚ)
    (m : ℕ) :
    ((conv_learn op img conv samples seed alloc_ok scratch0).2.1.layer m).depth =
      (conv.layer m).depth ∧
    ((conv_learn op img conv samples seed alloc_ok
        scratch0).2.1.layer m).no_of_features =
      (conv.layer m).no_of_features := by
  by_cases hterm : conv.no_of_layers ≤ conv.current_layer
  · unfold conv_learn
    rw [if_pos hterm]
    exact ⟨rfl, rfl⟩
  · cases alloc_ok with
    | false =>
      unfold conv_learn
      rw [if_neg hterm, if_pos rfl]
      exact ⟨rfl, rfl⟩
    | true =>
      obtain ⟨-, -, -, -, hd, hf⟩ :=
        conv_learn_pos_frame op img conv samples seed scratch0 (by omega)
      exact ⟨hd m, hf m⟩

/-! ### Claim C3 -/

/-- C3: after successful construction with `no_of_layers > 0` and a valid
configuration (`final_image_width <= image_width`,
`final_image_height <= image_height`, `0 < image_width`), every layer `l`
has width `image_width - (image_width-final_image_width)*l/no_of_layers`
(integer-truncating), and feature width equal to the base feature width
scaled by `width[l]/image_width` with a floor of 3, hence always at
least 3. -/
theorem conv_init_geometry (alloc : ℕ → Bool)
    (no_of_layers image_width image_height image_depth no_of_features
      feature_width final_image_width final_image_height : ℕ)
    (mt : ℕ → ℚ) (c : Conv)
    (_hN : 0 < no_of_layers) (_hfiw : final_image_width ≤ image_width)
    (_hfih : final_image_height ≤ image_height) (_hiw : 0 < image_width)
    (hok : conv_init alloc no_of_layers image_width image_height image_depth
      no_of_features feature_width final_image_width final_image_height mt =
      .ok c) :
    ∀ l, l < no_of_layers →
      (c.layer l).width = image_width -
        (image_width - final_image_width) * l / no_of_layers ∧
      (c.layer l).feature_width =
        max (feature_width * (c.layer l).width / image_width) 3 ∧
      3 ≤ (c.layer l).feature_width := by
  intro l hl
  have hspec := conv_init_layerSpec alloc image_width image_height image_depth
    no_of_features feature_width final_image_width final_image_height
    no_of_layers mt c hok l hl
  rw [hspec]
  simp only [layerSpec]
  refine ⟨trivial, ?_, ?_⟩
  · generalize feature_width *
      (image_width - (image_width - final_image_width) * l / no_of_layers) /
      image_width = X
    split_ifs with h3 <;> omega
  · generalize feature_width *
      (image_width - (image_width - final_image_width) * l / no_of_layers) /
      image_width = X
    split_ifs with h3 <;> omega

/-- Witness for C3 at a concrete input. -/
theorem conv_init_geometry_witness :
    0 < 1 ∧ 2 ≤ 4 ∧ 2 ≤ 4 ∧ 0 < 4 ∧
    ∀ l, l < 1 →
      (((conv_init (fun _ => true) 1 4 4 1 2 3 2 2
          (fun _ => 1 / 2)).toOption.getD demoConv).layer l).width =
        4 - (4 - 2) * l / 1 ∧
      (((conv_init (fun _ => true) 1 4 4 1 2 3 2 2
          (fun _ => 1 / 2)).toOption.getD demoConv).layer l).feature_width =
        max (3 * (((conv_init (fun _ => true) 1 4 4 1 2 3 2 2
          (fun _ => 1 / 2)).toOption.getD demoConv).layer l).width / 4) 3 ∧
      3 ≤ (((conv_init (fun _ => true) 1 4 4 1 2 3 2 2
          (fun _ => 1 / 2)).toOption.getD demoConv).layer l).feature_width :=
  ⟨by decide, by decide, by decide, by decide,
    conv_init_geometry (fun _ => true) 1 4 4 1 2 3 2 2 (fun _ => 1 / 2)
      ((conv_init (fun _ => true) 1 4 4 1 2 3 2 2
        (fun _ => 1 / 2)).toOption.getD demoConv)
      (by decide) (by decide) (by decide) (by decide) rfl⟩

/-! ### Claim C4 -/

/-- C4: after successful construction with `no_of_layers > 0`, layer 0's
depth equals `image_depth` and every later layer's depth equals the
previous layer's `no_of_features`; moreover neither `conv_feed_forward`
nor `conv_learn` ever changes any layer's `depth` or `no_of_features`, on
any network state. -/
theorem conv_init_depth_chain (alloc : ℕ → Bool)
    (no_of_layers image_width image_height image_depth no_of_features
      feature_width final_image_width final_image_height : ℕ)
    (mt : ℕ → ℚ) (c : Conv) (hN : 0 < no_of_layers)
    (hok : conv_init alloc no_of_layers image_width image_height image_depth
      no_of_features feature_width final_image_width final_image_height mt =
      .ok c) :
    (c.layer 0).depth = image_depth ∧
    (∀ l, 0 < l → l < no_of_layers →
      (c.layer l).depth = (c.layer (l - 1)).no_of_features) ∧
    (∀ (img : ℕ → ℕ) (conv : Conv) (L m : ℕ),
      ((conv_feed_forward img conv L).layer m).depth = (conv.layer m).depth ∧
      ((conv_feed_forward img conv L).layer m).no_of_features =
        (conv.layer m).no_of_features) ∧
    (∀ (op : LearnOp) (img : ℕ → ℕ) (conv : Conv) (samples seed : ℕ)
        (alloc_ok : Bool) (scratch0 : ℕ → ℚ) (m : ℕ),
      ((conv_learn op img conv samples seed alloc_ok
          scratch0).2.1.layer m).depth = (conv.layer m).depth ∧
      ((conv_learn op img conv samples seed alloc_ok
          scratch0).2.1.layer m).no_of_features =
        (conv.layer m).no_of_features) := by
  refine ⟨?_, ?_, ?_, ?_⟩
  · rw [conv_init_layerSpec alloc image_width image_height image_depth
      no_of_features feature_width final_image_width final_image_height
      no_of_layers mt c hok 0 hN]
    rfl
  · intro l h0 hl
    rw [conv_init_layerSpec alloc image_width image_height image_depth
      no_of_features feature_width final_image_width final_image_height
      no_of_layers mt c hok l hl,
      conv_init_layerSpec alloc image_width image_height image_depth
      no_of_features feature_width final_image_width final_image_height
      no_of_layers mt c hok (l - 1) (by omega)]
    simp only [layerSpec]
    rw [if_neg (by omega)]
  · intro img conv L m
    have hfr := conv_feed_forward_frameEq img conv L
    exact ⟨hfr.layer_depth m, hfr.layer_features m⟩
  · intro op img conv samples seed alloc_ok scratch0 m
    exact conv_learn_preserves_layer_geometry op img conv samples seed
      alloc_ok scratch0 m

/-- Witness for C4 at a concrete input. -/
theorem conv_init_depth_chain_witness :
    0 < 1 ∧
    ((((conv_init (fun _ => true) 1 4 4 1 2 3 2 2
        (fun _ => 1 / 2)).toOption.getD demoConv).layer 0).depth = 1 ∧
    (∀ l, 0 < l → l < 1 →
      (((conv_init (fun _ => true) 1 4 4 1 2 3 2 2
          (fun _ => 1 / 2)).toOption.getD demoConv).layer l).depth =
        (((conv_init (fun _ => true) 1 4 4 1 2 3 2 2
          (fun _ => 1 / 2)).toOption.getD demoConv).layer (l - 1)).no_of_features) ∧
    (∀ (img : ℕ → ℕ) (conv : Conv) (L m : ℕ),
      ((conv_feed_forward img conv L).layer m).depth = (conv.layer m).depth ∧
      ((conv_feed_forward img conv L).layer m).no_of_features =
        (conv.layer m).no_of_features) ∧
    (∀ (op : LearnOp) (img : ℕ → ℕ) (conv : Conv) (samples seed : ℕ)
        (alloc_ok : Bool) (scratch0 : ℕ → ℚ) (m : ℕ),
      ((conv_learn op img conv samples seed alloc_ok
          scratch0).2.1.layer m).depth = (conv.layer m).depth ∧
      ((conv_learn op img conv samples seed alloc_ok
          scratch0).2.1.layer m).no_of_features =
        (conv.layer m).no_of_features)) :=
  ⟨by decide,
    conv_init_depth_chain (fun _ => true) 1 4 4 1 2 3 2 2 (fun _ => 1 / 2)
      ((conv_init (fun _ => true) 1 4 4 1 2 3 2 2
        (fun _ => 1 / 2)).toOption.getD demoConv)
      (by decide) rfl⟩

/-! ### Claim C5 -/

/-- C5: `conv_init` fails with a distinct nonzero code per allocation
site — 1 for an activation buffer (even allocation index below
`2*no_of_layers`), 2 for a feature bank (odd index below
`2*no_of_layers`), 3 for the outputs buffer (index `2*no_of_layers`), 4
for the threshold buffer (index `2*no_of_layers+1`) — returns success
exactly when every allocation succeeds, and on success the caller's
`match_threshold` array has been copied into owned storage. -/
theorem conv_init_failure_codes (alloc : ℕ → Bool)
    (no_of_layers image_width image_height image_depth no_of_features
      feature_width final_image_width final_image_height : ℕ)
    (mt : ℕ → ℚ) :
    ((∃ c, conv_init alloc no_of_layers image_width image_height image_depth
        no_of_features feature_width final_image_width final_image_height mt =
        .ok c) ↔
      ∀ i, i < 2 * no_of_layers + 2 → alloc i = true) ∧
    (∀ i, i < 2 * no_of_layers + 2 → alloc i = false →
      (∀ j, j < i → alloc j = true) →
      conv_init alloc no_of_layers image_width image_height image_depth
        no_of_features feature_width final_image_width final_image_height mt =
        .error (if i < 2 * no_of_layers then (if i % 2 = 0 then 1 else 2)
          else if i = 2 * no_of_layers then 3 else 4) ∧
      (if i < 2 * no_of_layers then (if i % 2 = 0 then 1 else 2)
        else if i = 2 * no_of_layers then 3 else 4) ≠ 0) ∧
    (∀ c, conv_init alloc no_of_layers image_width image_height image_depth
        no_of_features feature_width final_image_width final_image_height mt =
        .ok c →
      ∀ l, l < no_of_layers → c.match_threshold l = mt l) := by
  refine ⟨⟨?_, ?_⟩, ?_, ?_⟩
  · rintro ⟨c, hc⟩ i hi
    obtain ⟨layers, hinit, h3, h4, -⟩ := conv_init_ok_elim alloc image_width
      image_height image_depth no_of_features feature_width final_image_width
      final_image_height no_of_layers mt c hc
    by_cases h1 : i < 2 * no_of_layers
    · exact initLayersAux_ok_alloc alloc image_width image_height image_depth
        no_of_features feature_width final_image_width final_image_height
        no_of_layers no_of_layers 0 _ layers hinit i (by omega) (by omega)
    · by_cases h2 : i = 2 * no_of_layers
      · exact h2 ▸ h3
      · have h5 : i = 2 * no_of_layers + 1 := by omega
        exact h5 ▸ h4
  · exact conv_init_ok_of_alloc alloc image_width image_height image_depth
      no_of_features feature_width final_image_width final_image_height
      no_of_layers mt
  · intro i hi hfail hbefore
    constructor
    · by_cases h1 : i < 2 * no_of_layers
      · rw [if_pos h1]
        exact conv_init_error_layers alloc image_width image_height
          image_depth no_of_features feature_width final_image_width
          final_image_height no_of_layers mt i h1 hfail hbefore
      · by_cases h2 : i = 2 * no_of_layers
        · rw [if_neg h1, if_pos h2]
          exact conv_init_error_outputs alloc image_width image_height
            image_depth no_of_features feature_width final_image_width
            final_image_height no_of_layers mt (h2 ▸ hfail)
            fun j hj => hbefore j (by omega)
        · rw [if_neg h1, if_neg h2]
          have h5 : i = 2 * no_of_layers + 1 := by omega
          exact conv_init_error_threshold alloc image_width image_height
            image_depth no_of_features feature_width final_image_width
            final_image_height no_of_layers mt (h5 ▸ hfail)
            fun j hj => hbefore j (by omega)
    · split_ifs <;> omega
  · intro c hc l hl
    obtain ⟨layers, -, -, -, hrec⟩ := conv_init_ok_elim alloc image_width
      image_height image_depth no_of_features feature_width final_image_width
      final_image_height no_of_layers mt c hc
    have hmt : c.match_threshold =
        fun i => if i < no_of_layers then mt i else 0 := by rw [hrec]
    rw [hmt]
    simp [hl]

/-! ### Claim C7 -/

/-- C7 counterexample: in the §8 scenario (2 layers, 8x8x1 image, final
size 4x4, 2 base features of width 4, all-zero feature banks), feeding the
all-zero image through the full feed-forward pipeline leaves similarity
value `0`, not `1`, in the outputs buffer (and the all-255 image leaves
`1`, not `0`): the second convolution stage inverts the first stage's
values, so not every similarity value of the pipeline equals `1.0`
(resp. `0.0`). -/
theorem scenario_pipeline_counterexample :
    (conv_feed_forward (fun _ => 0) scenarioConv 2).outputs 0 = 0 ∧
    (conv_feed_forward (fun _ => 255) scenarioConv 2).outputs 0 = 1 ∧
    (0 : ℚ) ≠ 1 :=
  ⟨scenario_ff2_zero 0 (by omega), scenario_ff2_max 0 (by omega), by norm_num⟩

/-- C7 amended: in the §8 scenario with all-zero feature banks, the
similarity values produced by the first convolution stage (layer 1's
activation buffer, all `6*6*2 = 72` cells) all equal exactly `1.0` for the
all-zero image and exactly `0.0` for the all-255 image; cascading through
the second stage maps these to exactly `0.0` (resp. `1.0`) throughout the
`4*4*2 = 32`-cell outputs buffer. -/
theorem scenario_similarity_values :
    (∀ j, j < 72 →
      ((conv_feed_forward (fun _ => 0) scenarioConv 1).layer 1).layer j = 1) ∧
    (∀ j, j < 72 →
      ((conv_feed_forward (fun _ => 255) scenarioConv 1).layer 1).layer j = 0) ∧
    (∀ j, j < 32 →
      (conv_feed_forward (fun _ => 0) scenarioConv 2).outputs j = 0) ∧
    (∀ j, j < 32 →
      (conv_feed_forward (fun _ => 255) scenarioConv 2).outputs j = 1) :=
  ⟨scenario_ff1_zero, scenario_ff1_max, scenario_ff2_zero, scenario_ff2_max⟩

/-- Witness for the amended C7 at concrete cells. -/
theorem scenario_similarity_values_witness :
    0 < 72 ∧ 0 < 32 ∧
    ((conv_feed_forward (fun _ => 0) scenarioConv 1).layer 1).layer 0 = 1 ∧
    ((conv_feed_forward (fun _ => 255) scenarioConv 1).layer 1).layer 0 = 0 ∧
    (conv_feed_forward (fun _ => 0) scenarioConv 2).outputs 0 = 0 ∧
    (conv_feed_forward (fun _ => 255) scenarioConv 2).outputs 0 = 1 :=
  ⟨by decide, by decide,
    scenario_similarity_values.1 0 (by decide),
    scenario_similarity_values.2.1 0 (by decide),
    scenario_similarity_values.2.2.1 0 (by decide),
    scenario_similarity_values.2.2.2 0 (by decide)⟩

end LibdeepConv